import Mathlib

set_option maxHeartbeats 1000000

set_option maxRecDepth 100000

namespace JourneyGraph

/-!
# Verification of the customer-journey GraphRAG retrieval engine

Shallow embedding of `src/retrieval.py` (plus the graph shape produced by
`src/build_graph.py`) of the `customer-journey-graphrag` repository, and
proofs of the frozen claims C1–C10 about it.

Modelling conventions:

* A networkx `DiGraph` is modelled as insertion-ordered association lists of
  nodes and edges (`Graph`).  networkx iterates nodes in insertion order and
  the successor/predecessor adjacency of each node in edge-insertion order,
  which filtering the global edge list reproduces.
* Python attribute dictionaries become `Attrs` (insertion-ordered association
  lists from `String` to `AttrValue`); `dict.get` returns `AttrValue.none`
  for a missing key, exactly like Python's `None` default.
* Python numbers are modelled by exact rationals (`ℚ`); Python's `round`
  (banker's rounding) becomes `pyRound`, exact on decimal values.  Binary
  floating-point representation error is outside the model.
* Python's stable `list.sort` / `sorted` (Timsort) is modelled by the stable
  insertion sort `stableSort`, which is structurally recursive so that it
  also evaluates inside the kernel on concrete inputs.
-/

/-- A Python attribute value as stored on nodes/edges of the journey graph:
`None`, a bool, an int, a float (modelled as an exact rational), or a str. -/
inductive AttrValue where
  | none
  | bool (b : Bool)
  | int (n : ℤ)
  | num (q : ℚ)
  | str (s : String)
deriving DecidableEq, Repr

/-- A Python attribute dictionary: an insertion-ordered association list. -/
abbrev Attrs := List (String × AttrValue)

/-- `d.get(k)` — `AttrValue.none` when the key is missing (Python's `None`). -/
def Attrs.get (a : Attrs) (k : String) : AttrValue :=
  match a.find? (fun p => decide (p.1 = k)) with
  | Option.some p => p.2
  | Option.none => AttrValue.none

/-- `d.get(k, dflt)` — the supplied default when the key is missing. -/
def Attrs.getD (a : Attrs) (k : String) (dflt : AttrValue) : AttrValue :=
  match a.find? (fun p => decide (p.1 = k)) with
  | Option.some p => p.2
  | Option.none => dflt

/-- `d[k] = v` — replace the binding in place (Python dicts keep the key's
original position) or append a fresh binding at the end. -/
def Attrs.set (a : Attrs) (k : String) (v : AttrValue) : Attrs :=
  match a with
  | [] => [(k, v)]
  | p :: ps => if p.1 = k then (k, v) :: ps else p :: Attrs.set ps k v

/-- A networkx `DiGraph`: nodes and directed edges in insertion order, each
carrying an attribute dictionary.  Node ids are the strings `"user_i"`,
`"session_i"`, `"event_i"`, `"product_i"` produced by `build_graph.py`
(the model allows arbitrary ids).  Well-formed graphs have no duplicate
node id and at most one edge per ordered pair; lookups take the first match,
matching networkx after its deduplication. -/
structure Graph where
  nodes : List (String × Attrs)
  edges : List (String × String × Attrs)
deriving DecidableEq, Repr

/-- `n in G` — node-membership test. -/
def Graph.member (G : Graph) (n : String) : Bool :=
  G.nodes.any (fun p => decide (p.1 = n))

/-- `G.nodes[n]` — attribute dictionary of a node (empty when absent;
the Python code only indexes nodes it has already found in the graph). -/
def Graph.nodeData (G : Graph) (n : String) : Attrs :=
  match G.nodes.find? (fun p => decide (p.1 = n)) with
  | Option.some p => p.2
  | Option.none => []

/-- `G.successors(n)` in edge-insertion order. -/
def Graph.successors (G : Graph) (n : String) : List String :=
  (G.edges.filter (fun e => decide (e.1 = n))).map (fun e => e.2.1)

/-- `G.predecessors(n)` in edge-insertion order. -/
def Graph.predecessors (G : Graph) (n : String) : List String :=
  (G.edges.filter (fun e => decide (e.2.1 = n))).map (fun e => e.1)

/-- `G.edges[u, v]` — attribute dictionary of an edge (empty when absent). -/
def Graph.edgeData (G : Graph) (u v : String) : Attrs :=
  match G.edges.find? (fun e => decide (e.1 = u ∧ e.2.1 = v)) with
  | Option.some e => e.2.2
  | Option.none => []

/-- Rendering of an attribute value inside an f-string such as
`f"user_{user_id}"`.  Exact for the ints, bools, `None` and strings the
graph builder stores; for a non-integral float Python would print its
shortest decimal repr, which this model approximates (no claim evaluates
that case). -/
def pyStr : AttrValue → String
  | AttrValue.none => "None"
  | AttrValue.bool b => if b then "True" else "False"
  | AttrValue.int n => toString n
  | AttrValue.num q => if q.den = 1 then toString q.num ++ ".0" else toString q
  | AttrValue.str s => s

/-- Python truthiness of an attribute value. -/
def pyTruthy : AttrValue → Bool
  | AttrValue.none => false
  | AttrValue.bool b => b
  | AttrValue.int n => decide (n ≠ 0)
  | AttrValue.num q => decide (q ≠ 0)
  | AttrValue.str s => decide (s ≠ "")

/-- Coercion of an attribute value to a string where the source reads a
field that is a `str` in every graph the builder produces. -/
def asStr : AttrValue → String
  | AttrValue.str s => s
  | v => pyStr v

/-- Coercion of an attribute value to a number where the source reads a
field that is numeric in every graph the builder produces (`ltv`). -/
def asNum : AttrValue → ℚ
  | AttrValue.int n => (n : ℚ)
  | AttrValue.num q => q
  | AttrValue.bool b => if b then 1 else 0
  | _ => 0

/-! ## Stable sorting (model of Python's stable `list.sort`) -/

/-- Insert `a` into a sorted list, after every element `b` with `le b a`:
the insertion point of Python's stable sort for an element arriving later. -/
def insertStable (le : α → α → Bool) (a : α) : List α → List α
  | [] => [a]
  | b :: bs => if le b a then b :: insertStable le a bs else a :: b :: bs

/-- Stable sort by a boolean comparison, processing elements left to right;
equal elements keep their original relative order, as Python's sort does. -/
def stableSort (le : α → α → Bool) (l : List α) : List α :=
  l.foldl (fun acc a => insertStable le a acc) []

/-! ## Ordering of attribute values

`list.sort(key=lambda x: x["timestamp"])` compares the raw Python
timestamp values.  The builder always stores `str` timestamps, on which
Python comparison is lexicographic by code point — exactly Lean's `String`
order.  On mixed types Python would raise `TypeError`; the model totalises
the order by constructor rank so that the sort is still defined there. -/

/-- Lexicographic `≤` on code-point sequences (structurally recursive so
that it evaluates inside the kernel). -/
def natListLe : List Nat → List Nat → Bool
  | [], _ => true
  | _ :: _, [] => false
  | a :: as, b :: bs => if a < b then true else if b < a then false else natListLe as bs

/-- Python's `<=` on strings: lexicographic comparison by code point. -/
def strLe (a b : String) : Bool :=
  natListLe (a.data.map Char.toNat) (b.data.map Char.toNat)

/-- Constructor rank, used to totalise the order across value kinds. -/
def AttrValue.rank : AttrValue → Nat
  | AttrValue.none => 0
  | AttrValue.bool _ => 1
  | AttrValue.int _ => 2
  | AttrValue.num _ => 3
  | AttrValue.str _ => 4

/-- Total boolean order on attribute values; coincides with Python `<=` when
both values are strings (the only case the graph builder produces for
timestamps). -/
def attrLe : AttrValue → AttrValue → Bool
  | AttrValue.bool x, AttrValue.bool y => !x || y
  | AttrValue.int x, AttrValue.int y => decide (x ≤ y)
  | AttrValue.num x, AttrValue.num y => decide (x ≤ y)
  | AttrValue.str x, AttrValue.str y => strLe x y
  | a, b => decide (a.rank ≤ b.rank)

/-! ## Python `round` (banker's rounding, exact-rational model) -/

/-- `round(q)` for a rational `q`: nearest integer, ties to even. -/
def pyRoundInt (q : ℚ) : ℤ :=
  let f : ℤ := ⌊q⌋
  if q - f < 1/2 then f
  else if q - f > 1/2 then f + 1
  else if f % 2 = 0 then f else f + 1

/-- `round(q, d)`: nearest multiple of `10⁻ᵈ`, ties to even. -/
def pyRound (q : ℚ) (d : ℕ) : ℚ :=
  (pyRoundInt (q * 10 ^ d) : ℚ) / 10 ^ d

/-! ## Journey extraction (`extract_user_journeys`, `get_user_context`) -/

/-- One entry of the `events` list built by `extract_user_journeys`:
the dict `{event_id, event_type, timestamp, page_url, products}` where
`products` holds the full attribute dicts of `INVOLVES`-linked products. -/
structure EventView where
  event_id : AttrValue
  event_type : AttrValue
  timestamp : AttrValue
  page_url : AttrValue
  products : List Attrs
deriving DecidableEq, Repr

/-- One session dict returned by `extract_user_journeys`. -/
structure Journey where
  session_id : AttrValue
  start_time : AttrValue
  event_count : Nat
  events : List EventView
deriving DecidableEq, Repr

/-- Comparison used by `events.sort(key=lambda x: x["timestamp"])`. -/
def tsLe (a b : EventView) : Bool := attrLe a.timestamp b.timestamp

/-- Build the event dict for one `Event` successor of a session. -/
def eventView (G : Graph) (e : String) : EventView :=
  let d := G.nodeData e
  { event_id := d.get "event_id"
    event_type := d.get "event_type"
    timestamp := d.get "timestamp"
    page_url := d.get "page_url"
    products := ((G.successors e).filter
        (fun p => decide ((G.nodeData p).get "node_type" = AttrValue.str "Product"))).map
      G.nodeData }

/-- The sorted event list of one session: enumerate the session's successors,
keep the `Event`-typed ones, build their views, and stably sort by
timestamp (Python's `list.sort`). -/
def sessionEvents (G : Graph) (s : String) : List EventView :=
  stableSort tsLe
    (((G.successors s).filter
        (fun e => decide ((G.nodeData e).get "node_type" = AttrValue.str "Event"))).map
      (eventView G))

/-- Journey dict for one session node. -/
def sessionJourney (G : Graph) (s : String) : Journey :=
  let sd := G.nodeData s
  let events := sessionEvents G s
  { session_id := sd.get "session_id"
    start_time := sd.get "start_time"
    event_count := events.length
    events := events }

/-- `extract_user_journeys` given the user node's string name (the source
builds the name with `f"user_{user_id}"`; callers inside the module pass
attribute values through that f-string, modelled by `pyStr`). -/
def extractByName (G : Graph) (user_node : String) (max_sessions : Nat) : List Journey :=
  if G.member user_node then
    let sessions := (G.successors user_node).filter
      (fun n => decide ((G.nodeData n).get "node_type" = AttrValue.str "Session"))
    (sessions.take max_sessions).map (sessionJourney G)
  else []

/-- `extract_user_journeys(G, user_id, max_sessions)` from `retrieval.py`. -/
def extract_user_journeys (G : Graph) (user_id : ℤ) (max_sessions : Nat) : List Journey :=
  extractByName G ("user_" ++ toString user_id) max_sessions

/-- The dict returned by `get_user_context`. -/
structure UserContext where
  user_id : AttrValue
  segment : AttrValue
  ltv : AttrValue
  churned : AttrValue
deriving DecidableEq, Repr

/-- `get_user_context` given the raw user-id value (as the module's internal
callers pass it); `Option.none` models Python's `None` result. -/
def getUserContextA (G : Graph) (uid : AttrValue) : Option UserContext :=
  let user_node := "user_" ++ pyStr uid
  if G.member user_node then
    let d := G.nodeData user_node
    Option.some
      { user_id := uid
        segment := d.get "segment"
        ltv := d.get "ltv"
        churned := d.get "churned" }
  else Option.none

/-- `get_user_context(G, user_id)` from `retrieval.py`. -/
def get_user_context (G : Graph) (user_id : ℤ) : Option UserContext :=
  getUserContextA G (AttrValue.int user_id)

/-! ## Pattern extraction (`extract_journey_pattern`) -/

/-- `" → ".join(e["event_type"] for e in events)`. -/
def extract_journey_pattern (events : List EventView) : String :=
  String.intercalate " → " (events.map (fun e => asStr e.event_type))

/-! ## Counters (`collections.Counter`) -/

/-- `Counter[k] += 1` on an insertion-ordered association list: bump an
existing key in place, or append a fresh key with count 1. -/
def cincr [DecidableEq α] (c : List (α × Nat)) (k : α) : List (α × Nat) :=
  match c with
  | [] => [(k, 1)]
  | p :: ps => if p.1 = k then (k, p.2 + 1) :: ps else p :: cincr ps k

/-- `sum(counter.values())`. -/
def sumCounts (c : List (α × Nat)) : Nat := (c.map (fun p => p.2)).sum

/-- `Counter.most_common(n)`: stable sort by count descending (ties keep
first-seen order, as `heapq.nlargest` over a stable sort does), then `take n`. -/
def mostCommon (c : List (α × Nat)) (n : Nat) : List (α × Nat) :=
  (stableSort (fun a b => decide (b.2 ≤ a.2)) c).take n

/-! ## Directional scanners -/

/-- `any(G.edges[node, succ].get("edge_type") == "NEXT" for succ in successors)`. -/
def hasNextEdge (G : Graph) (n : String) : Bool :=
  (G.successors n).any (fun s => decide ((G.edgeData n s).get "edge_type" = AttrValue.str "NEXT"))

/-- First predecessor whose node is `Session`-typed. -/
def sessionPredOf (G : Graph) (n : String) : Option String :=
  (G.predecessors n).find? (fun p => decide ((G.nodeData p).get "node_type" = AttrValue.str "Session"))

/-- First predecessor whose node is `User`-typed. -/
def userPredOf (G : Graph) (s : String) : Option String :=
  (G.predecessors s).find? (fun p => decide ((G.nodeData p).get "node_type" = AttrValue.str "User"))

/-- The scan loop of `find_sessions_by_outcome`: walk the node list, append
the `Session`-typed predecessor of every terminal event of the outcome
type, and break once the accumulator has reached `limit` (the length test
runs after each type-matching event, appended or not; `continue`d nodes
skip it, as in the source). -/
def fsboGo (G : Graph) (outcome : String) (limit : Nat) :
    List (String × Attrs) → List String → List String
  | [], acc => acc
  | (n, d) :: rest, acc =>
    if d.get "node_type" ≠ AttrValue.str "Event" then fsboGo G outcome limit rest acc
    else if d.get "event_type" ≠ AttrValue.str outcome then fsboGo G outcome limit rest acc
    else
      let acc' := if hasNextEdge G n then acc
        else match sessionPredOf G n with
          | Option.some p => acc ++ [p]
          | Option.none => acc
      if limit ≤ acc'.length then acc' else fsboGo G outcome limit rest acc'

/-- `find_sessions_by_outcome(G, outcome, limit)` from `retrieval.py`. -/
def find_sessions_by_outcome (G : Graph) (outcome : String) (limit : Nat) : List String :=
  fsboGo G outcome limit G.nodes []

/-- One path dict produced by `find_conversion_paths` / `find_churn_paths`:
`{"user_id": ..., "user_context": ..., **journey}`. -/
structure PathEntry where
  user_id : AttrValue
  user_context : Option UserContext
  journey : Journey
deriving DecidableEq, Repr

/-- The body of `find_conversion_paths` for one purchase session. -/
def convEntry (G : Graph) (s : String) : Option PathEntry :=
  match userPredOf G s with
  | Option.none => Option.none
  | Option.some u =>
    let uid := (G.nodeData u).get "user_id"
    let sid := (G.nodeData s).get "session_id"
    match (extractByName G ("user_" ++ pyStr uid) 1).find?
        (fun j => decide (j.session_id = sid)) with
    | Option.none => Option.none
    | Option.some j =>
      Option.some { user_id := uid, user_context := getUserContextA G uid, journey := j }

/-- `find_conversion_paths(G, limit)` from `retrieval.py`. -/
def find_conversion_paths (G : Graph) (limit : Nat) : List PathEntry :=
  (find_sessions_by_outcome G "purchase" limit).filterMap (convEntry G)

/-- The body of `find_churn_paths` for one exit session; only sessions of a
user whose `churned` attribute is truthy are kept. -/
def churnEntry (G : Graph) (s : String) : Option PathEntry :=
  match userPredOf G s with
  | Option.none => Option.none
  | Option.some u =>
    let uid := (G.nodeData u).get "user_id"
    match getUserContextA G uid with
    | Option.none => Option.none
    | Option.some ctx =>
      if pyTruthy ctx.churned then
        let sid := (G.nodeData s).get "session_id"
        match (extractByName G ("user_" ++ pyStr uid) 1).find?
            (fun j => decide (j.session_id = sid)) with
        | Option.none => Option.none
        | Option.some j =>
          Option.some { user_id := uid, user_context := Option.some ctx, journey := j }
      else Option.none

/-- `find_churn_paths(G, limit)` from `retrieval.py`. -/
def find_churn_paths (G : Graph) (limit : Nat) : List PathEntry :=
  (find_sessions_by_outcome G "exit" limit).filterMap (churnEntry G)

/-! ## Pattern aggregation (`find_common_patterns`) -/

/-- The strict attribute-equality user filter (`data.get(key) != value`).
The empty list models both `user_filter=None` and an empty dict, which the
source treats identically (`if user_filter:`). -/
def userMatches (d : Attrs) (filt : List (String × AttrValue)) : Bool :=
  filt.all (fun kv => decide (d.get kv.1 = kv.2))

/-- The inner loop of `find_common_patterns`: tally one user's journeys into
the pattern counter, stopping (before tallying) once `limit` sessions have
been analyzed. -/
def tallyJourneys (limit : Nat) :
    List Journey → List (String × Nat) → Nat → List (String × Nat) × Nat
  | [], c, k => (c, k)
  | j :: js, c, k =>
    if limit ≤ k then (c, k)
    else tallyJourneys limit js (cincr c (extract_journey_pattern j.events)) (k + 1)

/-- The outer loop of `find_common_patterns`: scan user nodes in graph
order, tally up to 5 journeys per matching user, and break once `limit`
sessions have been analyzed. -/
def fcpGo (G : Graph) (filt : List (String × AttrValue)) (limit : Nat) :
    List (String × Attrs) → List (String × Nat) → Nat → List (String × Nat)
  | [], c, _ => c
  | (_, d) :: rest, c, k =>
    if d.get "node_type" ≠ AttrValue.str "User" then fcpGo G filt limit rest c k
    else if ¬ userMatches d filt then fcpGo G filt limit rest c k
    else
      let r := tallyJourneys limit
        (extractByName G ("user_" ++ pyStr (d.get "user_id")) 5) c k
      if limit ≤ r.2 then r.1 else fcpGo G filt limit rest r.1 r.2

/-- The pattern counter after the scan of `find_common_patterns`. -/
def fcpCounter (G : Graph) (filt : List (String × AttrValue)) (limit : Nat) :
    List (String × Nat) :=
  fcpGo G filt limit G.nodes [] 0

/-- `find_common_patterns(G, user_filter, limit)` from `retrieval.py`:
top-10 `(pattern, count, count / total * 100 if total > 0 else 0)`. -/
def find_common_patterns (G : Graph) (filt : List (String × AttrValue)) (limit : Nat) :
    List (String × Nat × ℚ) :=
  let c := fcpCounter G filt limit
  let total := sumCounts c
  (mostCommon c 10).map
    (fun p => (p.1, p.2, if 0 < total then (p.2 : ℚ) / (total : ℚ) * 100 else 0))

/-! ## Cohort comparison (`compare_cohorts`) -/

/-- The mutable state of `analyze_cohort`'s scan. -/
structure CohortAcc where
  users : List Attrs
  sessions : List Journey
  event_counts : List Nat
  purchase_count : Nat
  cart_add_count : Nat
deriving DecidableEq, Repr

/-- Fold one journey into the cohort accumulator (append the session and
its event count; count `purchase` / `add_to_cart` events). -/
def accJourney (a : CohortAcc) (j : Journey) : CohortAcc :=
  { users := a.users
    sessions := a.sessions ++ [j]
    event_counts := a.event_counts ++ [j.event_count]
    purchase_count := a.purchase_count +
      (j.events.filter (fun e => decide (e.event_type = AttrValue.str "purchase"))).length
    cart_add_count := a.cart_add_count +
      (j.events.filter (fun e => decide (e.event_type = AttrValue.str "add_to_cart"))).length }

/-- The user scan of `analyze_cohort`: up to 3 journeys per matching
user, breaking once the session sample reaches `sample_size`. -/
def cohortGo (G : Graph) (filt : List (String × AttrValue)) (sample_size : Nat) :
    List (String × Attrs) → CohortAcc → CohortAcc
  | [], a => a
  | (_, d) :: rest, a =>
    if d.get "node_type" ≠ AttrValue.str "User" then cohortGo G filt sample_size rest a
    else if ¬ userMatches d filt then cohortGo G filt sample_size rest a
    else
      let a' := (extractByName G ("user_" ++ pyStr (d.get "user_id")) 3).foldl accJourney
        { a with users := a.users ++ [d] }
      if sample_size ≤ a'.sessions.length then a' else cohortGo G filt sample_size rest a'

/-- The per-cohort statistics dict of `analyze_cohort`. -/
structure CohortStats where
  user_count : Nat
  session_count : Nat
  avg_events_per_session : ℚ
  avg_ltv : ℚ
  purchase_events : Nat
  cart_add_events : Nat
  conversion_rate : ℚ
deriving DecidableEq, Repr

/-- The accumulator state after `analyze_cohort`'s scan. -/
def cohortAccOf (G : Graph) (filt : List (String × AttrValue)) (sample_size : Nat) :
    CohortAcc :=
  cohortGo G filt sample_size G.nodes ⟨[], [], [], 0, 0⟩

/-- `sum(event_counts) / len(event_counts) if event_counts else 0`. -/
def rawAvgEvents (a : CohortAcc) : ℚ :=
  if a.event_counts = [] then 0
  else ((a.event_counts.map (fun n => (n : ℚ))).sum) / (a.event_counts.length : ℚ)

/-- `sum(u["ltv"] for u in users) / len(users) if users else 0`. -/
def rawAvgLtv (a : CohortAcc) : ℚ :=
  if a.users = [] then 0
  else (a.users.map (fun u => asNum (u.get "ltv"))).sum / (a.users.length : ℚ)

/-- `purchase_count / len(sessions) * 100 if sessions else 0`. -/
def rawConvRate (a : CohortAcc) : ℚ :=
  if a.sessions = [] then 0
  else (a.purchase_count : ℚ) / (a.sessions.length : ℚ) * 100

/-- `analyze_cohort(user_filter)` from `compare_cohorts`. -/
def analyze_cohort (G : Graph) (filt : List (String × AttrValue)) (sample_size : Nat) :
    CohortStats :=
  let a := cohortAccOf G filt sample_size
  { user_count := a.users.length
    session_count := a.sessions.length
    avg_events_per_session := pyRound (rawAvgEvents a) 2
    avg_ltv := pyRound (rawAvgLtv a) 2
    purchase_events := a.purchase_count
    cart_add_events := a.cart_add_count
    conversion_rate := pyRound (rawConvRate a) 1 }

/-- The result of `compare_cohorts`.  The source returns a dict keyed by the
two display names plus a `"comparison"` dict; the display names carry no
data and feed only the serializer, so the stats are held positionally here
and the names are passed to the serializer separately. -/
structure CohortComparison where
  statsA : CohortStats
  statsB : CohortStats
  events_diff : ℚ
  ltv_diff : ℚ
  conversion_diff : ℚ
deriving DecidableEq, Repr

/-- `compare_cohorts(G, cohort_a_filter, cohort_b_filter, ..., sample_size)`. -/
def compare_cohorts (G : Graph) (fA fB : List (String × AttrValue)) (sample_size : Nat) :
    CohortComparison :=
  let a := analyze_cohort G fA sample_size
  let b := analyze_cohort G fB sample_size
  { statsA := a
    statsB := b
    events_diff := pyRound (a.avg_events_per_session - b.avg_events_per_session) 2
    ltv_diff := pyRound (a.avg_ltv - b.avg_ltv) 2
    conversion_diff := pyRound (a.conversion_rate - b.conversion_rate) 1 }

/-! ## Bounded backward walks along NEXT edges -/

/-- First predecessor reached through an edge tagged `NEXT`. -/
def nextPredOf (G : Graph) (cur : String) : Option String :=
  (G.predecessors cur).find? (fun p => decide ((G.edgeData p cur).get "edge_type" = AttrValue.str "NEXT"))

/-- Fuel-bounded backward walk: the list of events visited by
`for _ in range(fuel): prev = <NEXT predecessor>; if not prev: break`. -/
def backWalkFuel (G : Graph) : Nat → String → List String
  | 0, _ => []
  | Nat.succ k, cur =>
    match nextPredOf G cur with
    | Option.none => []
    | Option.some p => p :: backWalkFuel G k p

/-- The 20-hop backward walk shared by `find_products_before_purchase` and
`find_exit_points_after_category`. -/
def nextBackWalk (G : Graph) (start : String) : List String :=
  backWalkFuel G 20 start

/-- First `Product`-typed successor of an event node. -/
def firstProductSucc (G : Graph) (n : String) : Option String :=
  (G.successors n).find? (fun s => decide ((G.nodeData s).get "node_type" = AttrValue.str "Product"))

/-- Tally the products of one walked-back event into the category and name
counters, when the event is a `page_view` or `click`. -/
def tallyStepProducts (G : Graph) (st : List (AttrValue × Nat) × List (AttrValue × Nat))
    (p : String) : List (AttrValue × Nat) × List (AttrValue × Nat) :=
  let et := (G.nodeData p).get "event_type"
  if et = AttrValue.str "page_view" ∨ et = AttrValue.str "click" then
    ((G.successors p).filter
        (fun s => decide ((G.nodeData s).get "node_type" = AttrValue.str "Product"))).foldl
      (fun st s =>
        (cincr st.1 ((G.nodeData s).getD "category" (AttrValue.str "Unknown")),
         cincr st.2 ((G.nodeData s).getD "name" (AttrValue.str "Unknown"))))
      st
  else st

/-- Does the first `Product` successor of a purchase match the category
filter?  (`purchased_product.get("category") != category_filter` skips.) -/
def purchasedMatches (G : Graph) (cf : String) (n : String) : Bool :=
  match firstProductSucc G n with
  | Option.some p => decide ((G.nodeData p).get "category" = AttrValue.str cf)
  | Option.none => false

/-- The scan loop of `find_products_before_purchase`: state is
(category counter, product-name counter, purchases analyzed). -/
def fpbGo (G : Graph) (cf : Option String) (limit : Nat) :
    List (String × Attrs) → List (AttrValue × Nat) × List (AttrValue × Nat) × Nat →
      List (AttrValue × Nat) × List (AttrValue × Nat) × Nat
  | [], st => st
  | (n, d) :: rest, (cats, prods, tot) =>
    if d.get "node_type" ≠ AttrValue.str "Event" then fpbGo G cf limit rest (cats, prods, tot)
    else if d.get "event_type" ≠ AttrValue.str "purchase" then
      fpbGo G cf limit rest (cats, prods, tot)
    else if (match cf with
        | Option.some c => decide (c ≠ "") && ! purchasedMatches G c n
        | Option.none => false) then
      fpbGo G cf limit rest (cats, prods, tot)
    else
      let tot' := tot + 1
      let st' := (nextBackWalk G n).foldl (tallyStepProducts G) (cats, prods)
      if limit ≤ tot' then (st'.1, st'.2, tot')
      else fpbGo G cf limit rest (st'.1, st'.2, tot')

/-- The dict returned by `find_products_before_purchase`. -/
structure ProductsBeforePurchase where
  total_purchases_analyzed : Nat
  categories_viewed_before_purchase : List (AttrValue × Nat)
  top_products_viewed : List (AttrValue × Nat)
deriving DecidableEq, Repr

/-- `find_products_before_purchase(G, category_filter, limit)`. -/
def find_products_before_purchase (G : Graph) (cf : Option String) (limit : Nat) :
    ProductsBeforePurchase :=
  let st := fpbGo G cf limit G.nodes ([], [], 0)
  { total_purchases_analyzed := st.2.2
    categories_viewed_before_purchase := mostCommon st.1 10
    top_products_viewed := mostCommon st.2.1 10 }

/-- Does a walked-back event have a `Product` successor in the category?
(The source breaks at the first matching product, tallying once per event.) -/
def stepSeesCategory (G : Graph) (cat : String) (p : String) : Bool :=
  (G.successors p).any (fun s =>
    decide ((G.nodeData s).get "node_type" = AttrValue.str "Product" ∧
      (G.nodeData s).get "category" = AttrValue.str cat))

/-- The scan loop of `find_exit_points_after_category`: state is
(qualifying exits, last-event-type counter, hop counts of qualifying exits). -/
def epsGo (G : Graph) (cat : String) (limit : Nat) :
    List (String × Attrs) → Nat × List (AttrValue × Nat) × List Nat →
      Nat × List (AttrValue × Nat) × List Nat
  | [], st => st
  | (n, d) :: rest, (exits, pats, counts) =>
    if d.get "node_type" ≠ AttrValue.str "Event" then epsGo G cat limit rest (exits, pats, counts)
    else if d.get "event_type" ≠ AttrValue.str "exit" then
      epsGo G cat limit rest (exits, pats, counts)
    else
      let chain := nextBackWalk G n
      let pats' := chain.foldl
        (fun ps p => if stepSeesCategory G cat p then
            cincr ps ((G.nodeData p).getD "event_type" (AttrValue.str "unknown"))
          else ps) pats
      let viewed := chain.any (stepSeesCategory G cat)
      let exits' := if viewed then exits + 1 else exits
      let counts' := if viewed then counts ++ [chain.length] else counts
      if limit ≤ exits' then (exits', pats', counts')
      else epsGo G cat limit rest (exits', pats', counts')

/-- The dict returned by `find_exit_points_after_category`. -/
structure ExitPoints where
  category : String
  exits_after_viewing : Nat
  avg_events_before_exit : ℚ
  last_event_before_exit : List (AttrValue × Nat)
deriving DecidableEq, Repr

/-- `find_exit_points_after_category(G, category, limit)`. -/
def find_exit_points_after_category (G : Graph) (cat : String) (limit : Nat) : ExitPoints :=
  let st := epsGo G cat limit G.nodes (0, [], [])
  { category := cat
    exits_after_viewing := st.1
    avg_events_before_exit := pyRound
      (if st.2.2 = [] then 0
       else ((st.2.2.map (fun n => (n : ℚ))).sum) / (st.2.2.length : ℚ)) 2
    last_event_before_exit := mostCommon st.2.1 5 }

/-! ## Context serialization for the LLM

String formatting helpers model CPython's rendering on the value shapes the
module actually produces: `fmtFixed` is `format(x, ".df")` (round half to
even, exact on decimal rationals), `pyNumStr` is `str(x)` — exact for ints
and for the ≤2-decimal values produced by `round(x, 1)` / `round(x, 2)`;
Python additionally prints a float-typed integral value as `"3.0"`, which
arises only on branches no claim evaluates. -/

/-- Left-pad a digit string with zeros to width `d`. -/
def padZeros (s : String) (d : Nat) : String :=
  String.mk (List.replicate (d - s.length) '0') ++ s

/-- `f"{q:.df}"`: fixed-point formatting with `d` decimals. -/
def fmtFixed (q : ℚ) (d : Nat) : String :=
  let r := pyRoundInt (q * 10 ^ d)
  let sign := if r < 0 then "-" else ""
  let a := r.natAbs
  if d = 0 then sign ++ toString a
  else sign ++ toString (a / 10 ^ d) ++ "." ++ padZeros (toString (a % 10 ^ d)) d

/-- `str(x)` for the numbers the module prints outside `:.df` formats. -/
def pyNumStr (q : ℚ) : String :=
  if q.den = 1 then toString q.num
  else if (q * 10).den = 1 then fmtFixed q 1
  else if (q * 100).den = 1 then fmtFixed q 2
  else toString q

/-- Python's `str.title()` (ASCII letters, as in all section headers). -/
def pyTitle (s : String) : String :=
  String.mk (s.data.foldl
    (fun st c =>
      let c' := if c.isAlpha then (if st.1 then c.toLower else c.toUpper) else c
      (c.isAlpha, st.2 ++ [c']))
    (false, [])).2

/-- `serialize_journey_to_text(journey)` from `retrieval.py`. -/
def serialize_journey_to_text (pe : PathEntry) : String :=
  let userParts : List String :=
    match pe.user_context with
    | Option.some ctx =>
      ["User (segment: " ++ pyStr ctx.segment ++ ", LTV: $" ++ fmtFixed (asNum ctx.ltv) 2 ++
        ", churned: " ++ pyStr ctx.churned ++ ")"]
    | Option.none => []
  let path_parts := pe.journey.events.map (fun e =>
    asStr e.event_type ++
      match e.products with
      | [] => ""
      | prod :: _ =>
        " (" ++ pyStr (prod.getD "category" (AttrValue.str "Unknown")) ++ " - $" ++
          fmtFixed (asNum (prod.getD "price" (AttrValue.int 0))) 2 ++ ")")
  let parts := userParts ++
    (if path_parts = [] then []
     else ["Journey: " ++ String.intercalate " → " path_parts])
  String.intercalate "\n" parts

/-- `serialize_journeys_for_llm(journeys, max_journeys, include_stats)`. -/
def serialize_journeys_for_llm (journeys : List PathEntry) (max_journeys : Nat)
    (include_stats : Bool) : String :=
  if journeys = [] then "No journeys found matching the criteria."
  else
    let sampleLines := ((journeys.take max_journeys).enumFrom 1).foldr
      (fun p acc =>
        ("\n**Journey " ++ toString p.1 ++ ":**") :: serialize_journey_to_text p.2 :: acc)
      []
    let statLines :=
      if include_stats && decide (1 < journeys.length) then
        let event_counts := journeys.map (fun j => j.journey.events.length)
        let avg : ℚ := ((event_counts.map (fun n => (n : ℚ))).sum) / (event_counts.length : ℚ)
        let event_types := journeys.foldl
          (fun c j => j.journey.events.foldl (fun c e => cincr c e.event_type) c) []
        ["\n### Statistics:",
         "- Total journeys analyzed: " ++ toString journeys.length,
         "- Average events per session: " ++ fmtFixed avg 1,
         "- Event distribution: " ++ String.intercalate ", "
            ((mostCommon event_types 5).map (fun p => pyStr p.1 ++ ": " ++ toString p.2))]
      else []
    String.intercalate "\n"
      (["## Customer Journey Context\n", "### Sample Journeys:"] ++ sampleLines ++ statLines)

/-- `serialize_patterns_for_llm(patterns, context_description)`. -/
def serialize_patterns_for_llm (patterns : List (String × Nat × ℚ))
    (context_description : String) : String :=
  if patterns = [] then "No " ++ context_description ++ " found."
  else
    String.intercalate "\n"
      (("## Common " ++ pyTitle context_description ++ "\n") ::
        ((patterns.enumFrom 1).map (fun p =>
          toString p.1 ++ ". **" ++ p.2.1 ++ "** - " ++ toString p.2.2.1 ++
            " occurrences (" ++ fmtFixed p.2.2.2 1 ++ "%)")))

/-- The stats dict of one cohort in iteration (= insertion) order, each
value rendered as Python would interpolate it. -/
def statEntries (st : CohortStats) : List (String × String) :=
  [("user_count", toString st.user_count),
   ("session_count", toString st.session_count),
   ("avg_events_per_session", pyNumStr st.avg_events_per_session),
   ("avg_ltv", pyNumStr st.avg_ltv),
   ("purchase_events", toString st.purchase_events),
   ("cart_add_events", toString st.cart_add_events),
   ("conversion_rate", pyNumStr st.conversion_rate)]

/-- `serialize_comparison_for_llm(comparison)`: the source iterates the
result dict `{nameA: statsA, nameB: statsB, "comparison": diffs}` in
insertion order, rendering the stats sections and then the Key Differences
section (display names are assumed distinct from `"comparison"`, as at
every call site). -/
def serialize_comparison_for_llm (c : CohortComparison) (nameA nameB : String) : String :=
  let statSection := fun (name : String) (st : CohortStats) =>
    ("\n### " ++ name ++ ":") ::
      (statEntries st).map (fun p => "- " ++ p.1 ++ ": " ++ p.2)
  let diffSection := "\n### Key Differences:" ::
    ([("events_diff", c.events_diff), ("ltv_diff", c.ltv_diff),
      ("conversion_diff", c.conversion_diff)].map (fun p =>
        "- " ++ p.1 ++ ": " ++ pyNumStr |p.2| ++ " " ++
          (if 0 < p.2 then "higher" else "lower")))
  String.intercalate "\n"
    (["## Cohort Comparison\n"] ++ statSection nameA c.statsA ++
      statSection nameB c.statsB ++ diffSection)

/-! ## High-level query functions -/

/-- `query_churned_user_journeys(G, sample_size)`. -/
def query_churned_user_journeys (G : Graph) (sample_size : Nat) : String :=
  let paths := find_churn_paths G sample_size
  let patterns := find_common_patterns G [("churned", AttrValue.bool true)] 100
  serialize_journeys_for_llm paths 5 true ++ "\n\n" ++
    serialize_patterns_for_llm patterns "churned user journey patterns"

/-- `query_high_vs_low_ltv(G)`. -/
def query_high_vs_low_ltv (G : Graph) : String :=
  let comparison := compare_cohorts G
    [("segment", AttrValue.str "high_value")] [("segment", AttrValue.str "low")] 50
  let high_patterns := find_common_patterns G [("segment", AttrValue.str "high_value")] 50
  let low_patterns := find_common_patterns G [("segment", AttrValue.str "low")] 50
  serialize_comparison_for_llm comparison "High-Value Users" "Low-Value Users" ++ "\n\n" ++
    serialize_patterns_for_llm high_patterns "high-value user patterns" ++ "\n\n" ++
    serialize_patterns_for_llm low_patterns "low-value user patterns"

/-- The text assembly of `query_pre_purchase_behavior` (a pure function of
the two retrieval results and the category argument). -/
def renderPrePurchase (pre : ProductsBeforePurchase) (conv : List PathEntry)
    (category : Option String) : String :=
  let catLines : List String :=
    match category with
    | Option.some c => if c = "" then [] else ["**Filtered by category: " ++ c ++ "**\n"]
    | Option.none => []
  let lines := ["## Pre-Purchase Behavior Analysis\n"] ++ catLines ++
    ["Purchases analyzed: " ++ toString pre.total_purchases_analyzed,
     "\n### Categories viewed before purchase:"] ++
    pre.categories_viewed_before_purchase.map
      (fun p => "- " ++ pyStr p.1 ++ ": " ++ toString p.2 ++ " views") ++
    ["\n### Sample conversion journeys:"]
  String.intercalate "\n" lines ++ "\n\n" ++ serialize_journeys_for_llm conv 5 true

/-- `query_pre_purchase_behavior(G, category)`. -/
def query_pre_purchase_behavior (G : Graph) (category : Option String) : String :=
  renderPrePurchase (find_products_before_purchase G category 50)
    (find_conversion_paths G 20) category

/-- The text assembly of `query_category_exit_analysis`. -/
def renderCategoryExit (e : ExitPoints) (category : String) : String :=
  String.intercalate "\n"
    (["## Exit Analysis for " ++ category ++ " Category\n",
      "- Users who exited after viewing " ++ category ++ ": " ++
        toString e.exits_after_viewing,
      "- Average events before exit: " ++ pyNumStr e.avg_events_before_exit,
      "\n### Last event type before exit:"] ++
      e.last_event_before_exit.map (fun p => "- " ++ pyStr p.1 ++ ": " ++ toString p.2))

/-- `query_category_exit_analysis(G, category)`. -/
def query_category_exit_analysis (G : Graph) (category : String) : String :=
  renderCategoryExit (find_exit_points_after_category G category 50) category

/-! ## Substring testing (for the placeholder claims) -/

/-- Does `pat` occur as a contiguous sublist? -/
def listHasInfix [DecidableEq α] (pat : List α) : List α → Bool
  | [] => decide (pat = [])
  | a :: rest => (pat.isPrefixOf (a :: rest) : Bool) || listHasInfix pat rest

/-- Does the string `s` contain `pat` as a substring? -/
def hasSubstr (s pat : String) : Bool := listHasInfix pat.data s.data

/-- Recursive characterization of `str.join` (Python's separator join). -/
def joinSep (sep : String) : List String → String
  | [] => ""
  | [x] => x
  | x :: y :: xs => x ++ sep ++ joinSep sep (y :: xs)

/-- Tail of a separator join: the separator-prefixed continuation. -/
def joinRest (sep : String) : List String → String
  | [] => ""
  | a :: as => sep ++ a ++ joinRest sep as

/-! ## Concrete graphs used as witnesses and counterexamples -/

/-- The empty graph store (no nodes, no edges). -/
def emptyGraph : Graph := { nodes := [], edges := [] }

/-- The unit-test fixture `sample_graph` of `tests/test_retrieval.py`:
one user, one session, three events `page_view → click → purchase`, the
click involving an Electronics product. -/
def sampleG : Graph :=
  { nodes := [
      ("user_1", [("node_type", AttrValue.str "User"), ("user_id", AttrValue.int 1),
        ("segment", AttrValue.str "high_value"), ("ltv", AttrValue.int 500),
        ("churned", AttrValue.bool false)]),
      ("session_1", [("node_type", AttrValue.str "Session"), ("session_id", AttrValue.int 1),
        ("start_time", AttrValue.str "2026-01-01T10:00:00")]),
      ("event_1", [("node_type", AttrValue.str "Event"), ("event_id", AttrValue.int 1),
        ("event_type", AttrValue.str "page_view"),
        ("timestamp", AttrValue.str "2026-01-01T10:00:00"),
        ("page_url", AttrValue.str "/home")]),
      ("event_2", [("node_type", AttrValue.str "Event"), ("event_id", AttrValue.int 2),
        ("event_type", AttrValue.str "click"),
        ("timestamp", AttrValue.str "2026-01-01T10:01:00"),
        ("page_url", AttrValue.str "/products")]),
      ("event_3", [("node_type", AttrValue.str "Event"), ("event_id", AttrValue.int 3),
        ("event_type", AttrValue.str "purchase"),
        ("timestamp", AttrValue.str "2026-01-01T10:02:00"),
        ("page_url", AttrValue.str "/checkout")]),
      ("product_1", [("node_type", AttrValue.str "Product"), ("product_id", AttrValue.int 1),
        ("name", AttrValue.str "Test Product"), ("category", AttrValue.str "Electronics"),
        ("price", AttrValue.int 99)])],
    edges := [
      ("user_1", "session_1", [("edge_type", AttrValue.str "STARTED")]),
      ("session_1", "event_1", [("edge_type", AttrValue.str "CONTAINS")]),
      ("session_1", "event_2", [("edge_type", AttrValue.str "CONTAINS")]),
      ("session_1", "event_3", [("edge_type", AttrValue.str "CONTAINS")]),
      ("event_1", "event_2", [("edge_type", AttrValue.str "NEXT")]),
      ("event_2", "event_3", [("edge_type", AttrValue.str "NEXT")]),
      ("event_2", "product_1", [("edge_type", AttrValue.str "INVOLVES")])] }

/-- A graph whose two `NEXT` edges form a cycle between a purchase event
and a page-view event involving a product: legal input for the bounded
backward walks, which must still terminate. -/
def cycleG : Graph :=
  { nodes := [
      ("event_1", [("node_type", AttrValue.str "Event"), ("event_id", AttrValue.int 1),
        ("event_type", AttrValue.str "purchase"), ("timestamp", AttrValue.str "a")]),
      ("event_2", [("node_type", AttrValue.str "Event"), ("event_id", AttrValue.int 2),
        ("event_type", AttrValue.str "page_view"), ("timestamp", AttrValue.str "b")]),
      ("product_1", [("node_type", AttrValue.str "Product"),
        ("name", AttrValue.str "Widget"), ("category", AttrValue.str "Electronics")])],
    edges := [
      ("event_1", "event_2", [("edge_type", AttrValue.str "NEXT")]),
      ("event_2", "event_1", [("edge_type", AttrValue.str "NEXT")]),
      ("event_2", "product_1", [("edge_type", AttrValue.str "INVOLVES")])] }

/-- A session whose two events share one timestamp but were inserted with
the larger event id first: `extract_user_journeys` must sort them. -/
def tieG : Graph :=
  { nodes := [
      ("user_1", [("node_type", AttrValue.str "User"), ("user_id", AttrValue.int 1)]),
      ("session_1", [("node_type", AttrValue.str "Session"), ("session_id", AttrValue.int 1)]),
      ("event_2", [("node_type", AttrValue.str "Event"), ("event_id", AttrValue.int 2),
        ("event_type", AttrValue.str "click"), ("timestamp", AttrValue.str "T")]),
      ("event_1", [("node_type", AttrValue.str "Event"), ("event_id", AttrValue.int 1),
        ("event_type", AttrValue.str "page_view"), ("timestamp", AttrValue.str "T")])],
    edges := [
      ("user_1", "session_1", [("edge_type", AttrValue.str "STARTED")]),
      ("session_1", "event_2", [("edge_type", AttrValue.str "CONTAINS")]),
      ("session_1", "event_1", [("edge_type", AttrValue.str "CONTAINS")])] }

/-- Overwrite the stored `event_count` attribute of every `Session`-typed
node (the attribute `extract_user_journeys` is claimed never to read). -/
def setSessionEventCount (G : Graph) (v : AttrValue) : Graph :=
  { nodes := G.nodes.map (fun p =>
      if p.2.get "node_type" = AttrValue.str "Session"
      then (p.1, p.2.set "event_count" v) else p)
    edges := G.edges }

/-- A graph exercising `find_sessions_by_outcome` with `limit = 0`: the
length check runs only after the first append, so one session is returned
although the limit is zero. -/
def limitZeroG : Graph :=
  { nodes := [
      ("event_1", [("node_type", AttrValue.str "Event"), ("event_id", AttrValue.int 1),
        ("event_type", AttrValue.str "purchase"), ("timestamp", AttrValue.str "a")]),
      ("session_1", [("node_type", AttrValue.str "Session"), ("session_id", AttrValue.int 1)])],
    edges := [
      ("session_1", "event_1", [("edge_type", AttrValue.str "CONTAINS")])] }

/-- A graph whose only Session-typed predecessor of the terminal purchase
event is linked by a `STARTED` edge, not `CONTAINS`: the scan resolves the
owner by node type only. -/
def oddEdgeG : Graph :=
  { nodes := [
      ("event_1", [("node_type", AttrValue.str "Event"), ("event_id", AttrValue.int 1),
        ("event_type", AttrValue.str "purchase"), ("timestamp", AttrValue.str "a")]),
      ("sess", [("node_type", AttrValue.str "Session"), ("session_id", AttrValue.int 7)])],
    edges := [
      ("sess", "event_1", [("edge_type", AttrValue.str "STARTED")])] }

/-- The property the amended C6 asserts of each returned session id:
it is the first `Session`-typed predecessor of some node listed as an
`Event` of the outcome type with no outbound NEXT edge. -/
def c6Property (G : Graph) (outcome : String) (s : String) : Prop :=
  ∃ e d, (e, d) ∈ G.nodes ∧
    d.get "node_type" = AttrValue.str "Event" ∧
    d.get "event_type" = AttrValue.str outcome ∧
    hasNextEdge G e = false ∧
    sessionPredOf G e = Option.some s

/-- Eleven users with one single-event session each, all eleven event types
distinct: the pattern counter ends with 11 distinct patterns of count 1,
so the top-10 cutoff drops one of them. -/
def elevenG : Graph :=
  { nodes :=
      (List.range 11).map (fun i =>
        ("user_" ++ toString i,
          [("node_type", AttrValue.str "User"), ("user_id", AttrValue.int i)])) ++
      (List.range 11).map (fun i =>
        ("session_" ++ toString i,
          [("node_type", AttrValue.str "Session"), ("session_id", AttrValue.int i)])) ++
      (List.range 11).map (fun i =>
        ("event_" ++ toString i,
          [("node_type", AttrValue.str "Event"), ("event_id", AttrValue.int i),
           ("event_type", AttrValue.str ("t" ++ toString i)),
           ("timestamp", AttrValue.str "a")]))
    edges :=
      (List.range 11).map (fun i =>
        ("user_" ++ toString i, "session_" ++ toString i,
          [("edge_type", AttrValue.str "STARTED")])) ++
      (List.range 11).map (fun i =>
        ("session_" ++ toString i, "event_" ++ toString i,
          [("edge_type", AttrValue.str "CONTAINS")])) }

/-! ## A deep embedding of the graph-API footprint of `retrieval.py`

`GQuery` has one constructor per networkx operation the module invokes —
all of them reads (`G.nodes`, `node in G`, `G.nodes[n]`, `G.successors`,
`G.predecessors`, `G.edges[u, v]`) — plus `pure`/`bind` for sequencing.
`runQ` interprets a program against a graph state, returning the result
and the final graph.  Because the module's API footprint contains no
mutating operation, every such program returns the graph unchanged
(`runQ_preserves`), and each retrieval operation is such a program (the
serializers never receive the graph at all, as their types show). -/

inductive GQuery : Type → Type 1 where
  | pure {α : Type} (a : α) : GQuery α
  | bind {α β : Type} (m : GQuery α) (f : α → GQuery β) : GQuery β
  | nodesQ : GQuery (List (String × Attrs))
  | memberQ (n : String) : GQuery Bool
  | nodeDataQ (n : String) : GQuery Attrs
  | succQ (n : String) : GQuery (List String)
  | predQ (n : String) : GQuery (List String)
  | edgeDataQ (u v : String) : GQuery Attrs

/-- Interpret a graph program against a graph state. -/
def runQ : {α : Type} → GQuery α → Graph → α × Graph
  | _, GQuery.pure a, G => (a, G)
  | _, GQuery.bind m f, G =>
    let r := runQ m G
    runQ (f r.1) r.2
  | _, GQuery.nodesQ, G => (G.nodes, G)
  | _, GQuery.memberQ n, G => (G.member n, G)
  | _, GQuery.nodeDataQ n, G => (G.nodeData n, G)
  | _, GQuery.succQ n, G => (G.successors n, G)
  | _, GQuery.predQ n, G => (G.predecessors n, G)
  | _, GQuery.edgeDataQ u v, G => (G.edgeData u v, G)

/-- The result component of a program run. -/
def resQ (q : GQuery α) (G : Graph) : α := (runQ q G).1

/-- Effectful `map` over a list (the module's per-element read loops). -/
def GQuery.mapM (f : α → GQuery β) : List α → GQuery (List β)
  | [] => GQuery.pure []
  | a :: as =>
    GQuery.bind (f a) (fun b =>
      GQuery.bind (GQuery.mapM f as) (fun bs => GQuery.pure (b :: bs)))

/-- Effectful `filter` (type-tag dispatch loops). -/
def GQuery.filterM (p : α → GQuery Bool) : List α → GQuery (List α)
  | [] => GQuery.pure []
  | a :: as =>
    GQuery.bind (p a) (fun b =>
      GQuery.bind (GQuery.filterM p as) (fun rest =>
        GQuery.pure (if b then a :: rest else rest)))

/-- Effectful left fold (tallying loops). -/
def GQuery.foldlM (f : β → α → GQuery β) : β → List α → GQuery β
  | b, [] => GQuery.pure b
  | b, a :: as => GQuery.bind (f b a) (fun b2 => GQuery.foldlM f b2 as)

/-- Effectful short-circuiting `any`. -/
def GQuery.anyM (p : α → GQuery Bool) : List α → GQuery Bool
  | [] => GQuery.pure false
  | a :: as =>
    GQuery.bind (p a) (fun b => if b then GQuery.pure true else GQuery.anyM p as)

/-- Effectful first-match search (`for ...: if ...: break` loops). -/
def GQuery.findM (p : α → GQuery Bool) : List α → GQuery (Option α)
  | [] => GQuery.pure Option.none
  | a :: as =>
    GQuery.bind (p a) (fun b =>
      if b then GQuery.pure (Option.some a) else GQuery.findM p as)

/-- Effectful `filterMap` (per-session optional path extraction). -/
def GQuery.filterMapM (f : α → GQuery (Option β)) : List α → GQuery (List β)
  | [] => GQuery.pure []
  | a :: as =>
    GQuery.bind (f a) (fun ob =>
      GQuery.bind (GQuery.filterMapM f as) (fun bs =>
        GQuery.pure (match ob with
          | Option.some b => b :: bs
          | Option.none => bs)))

/-! ### Programs for the retrieval operations

Each `...Q` definition is the same line-by-line translation of the source
as its pure counterpart, with every graph access performed through the
`GQuery` API; the `resQ_...` lemmas prove the two translations compute the
same results. -/

/-- `GQuery` program of the per-event view construction. -/
def eventViewQ (e : String) : GQuery EventView :=
  GQuery.bind (GQuery.nodeDataQ e) fun d =>
  GQuery.bind (GQuery.succQ e) fun succs =>
  GQuery.bind (GQuery.filterM (fun p =>
      GQuery.bind (GQuery.nodeDataQ p) fun pd =>
      GQuery.pure (decide (pd.get "node_type" = AttrValue.str "Product"))) succs) fun prods =>
  GQuery.bind (GQuery.mapM (fun p => GQuery.nodeDataQ p) prods) fun pdicts =>
  GQuery.pure
    { event_id := d.get "event_id"
      event_type := d.get "event_type"
      timestamp := d.get "timestamp"
      page_url := d.get "page_url"
      products := pdicts }

/-- `GQuery` program of `sessionEvents`. -/
def sessionEventsQ (s : String) : GQuery (List EventView) :=
  GQuery.bind (GQuery.succQ s) fun succs =>
  GQuery.bind (GQuery.filterM (fun e =>
      GQuery.bind (GQuery.nodeDataQ e) fun ed =>
      GQuery.pure (decide (ed.get "node_type" = AttrValue.str "Event"))) succs) fun evs =>
  GQuery.bind (GQuery.mapM eventViewQ evs) fun views =>
  GQuery.pure (stableSort tsLe views)

/-- `GQuery` program of `sessionJourney`. -/
def sessionJourneyQ (s : String) : GQuery Journey :=
  GQuery.bind (GQuery.nodeDataQ s) fun sd =>
  GQuery.bind (sessionEventsQ s) fun events =>
  GQuery.pure
    { session_id := sd.get "session_id"
      start_time := sd.get "start_time"
      event_count := events.length
      events := events }

/-- `GQuery` program of `extractByName`. -/
def extractByNameQ (user_node : String) (max_sessions : Nat) : GQuery (List Journey) :=
  GQuery.bind (GQuery.memberQ user_node) fun inG =>
  if inG then
    GQuery.bind (GQuery.succQ user_node) fun ss =>
    GQuery.bind (GQuery.filterM (fun n =>
        GQuery.bind (GQuery.nodeDataQ n) fun nd =>
        GQuery.pure (decide (nd.get "node_type" = AttrValue.str "Session"))) ss) fun sessions =>
    GQuery.mapM sessionJourneyQ (sessions.take max_sessions)
  else GQuery.pure []

/-- `GQuery` program of `extract_user_journeys`. -/
def extract_user_journeysQ (user_id : ℤ) (max_sessions : Nat) : GQuery (List Journey) :=
  extractByNameQ ("user_" ++ toString user_id) max_sessions

/-- `GQuery` program of `getUserContextA`. -/
def getUserContextAQ (uid : AttrValue) : GQuery (Option UserContext) :=
  GQuery.bind (GQuery.memberQ ("user_" ++ pyStr uid)) fun inG =>
  if inG then
    GQuery.bind (GQuery.nodeDataQ ("user_" ++ pyStr uid)) fun d =>
    GQuery.pure (Option.some
      { user_id := uid
        segment := d.get "segment"
        ltv := d.get "ltv"
        churned := d.get "churned" })
  else GQuery.pure Option.none

/-- `GQuery` program of `get_user_context`. -/
def get_user_contextQ (user_id : ℤ) : GQuery (Option UserContext) :=
  getUserContextAQ (AttrValue.int user_id)

/-- `GQuery` program of `hasNextEdge`. -/
def hasNextEdgeQ (n : String) : GQuery Bool :=
  GQuery.bind (GQuery.succQ n) fun ss =>
  GQuery.anyM (fun s =>
    GQuery.bind (GQuery.edgeDataQ n s) fun ed =>
    GQuery.pure (decide (ed.get "edge_type" = AttrValue.str "NEXT"))) ss

/-- `GQuery` program of `sessionPredOf`. -/
def sessionPredOfQ (n : String) : GQuery (Option String) :=
  GQuery.bind (GQuery.predQ n) fun ps =>
  GQuery.findM (fun p =>
    GQuery.bind (GQuery.nodeDataQ p) fun d =>
    GQuery.pure (decide (d.get "node_type" = AttrValue.str "Session"))) ps

/-- `GQuery` program of `userPredOf`. -/
def userPredOfQ (s : String) : GQuery (Option String) :=
  GQuery.bind (GQuery.predQ s) fun ps =>
  GQuery.findM (fun p =>
    GQuery.bind (GQuery.nodeDataQ p) fun d =>
    GQuery.pure (decide (d.get "node_type" = AttrValue.str "User"))) ps

/-- `GQuery` program of the `find_sessions_by_outcome` scan loop. -/
def fsboGoQ (outcome : String) (limit : Nat) :
    List (String × Attrs) → List String → GQuery (List String)
  | [], acc => GQuery.pure acc
  | (n, d) :: rest, acc =>
    if d.get "node_type" ≠ AttrValue.str "Event" then fsboGoQ outcome limit rest acc
    else if d.get "event_type" ≠ AttrValue.str outcome then fsboGoQ outcome limit rest acc
    else
      GQuery.bind (hasNextEdgeQ n) fun hn =>
      GQuery.bind (sessionPredOfQ n) fun sp =>
      let acc' := if hn then acc
        else match sp with
          | Option.some p => acc ++ [p]
          | Option.none => acc
      if limit ≤ acc'.length then GQuery.pure acc' else fsboGoQ outcome limit rest acc'

/-- `GQuery` program of `find_sessions_by_outcome`. -/
def find_sessions_by_outcomeQ (outcome : String) (limit : Nat) : GQuery (List String) :=
  GQuery.bind GQuery.nodesQ fun ns => fsboGoQ outcome limit ns []

/-- `GQuery` program of `convEntry`. -/
def convEntryQ (s : String) : GQuery (Option PathEntry) :=
  GQuery.bind (userPredOfQ s) fun ou =>
  match ou with
  | Option.none => GQuery.pure Option.none
  | Option.some u =>
    GQuery.bind (GQuery.nodeDataQ u) fun ud =>
    GQuery.bind (GQuery.nodeDataQ s) fun sd =>
    GQuery.bind (extractByNameQ ("user_" ++ pyStr (ud.get "user_id")) 1) fun js =>
    match js.find? (fun j => decide (j.session_id = sd.get "session_id")) with
    | Option.none => GQuery.pure Option.none
    | Option.some j =>
      GQuery.bind (getUserContextAQ (ud.get "user_id")) fun ctx =>
      GQuery.pure (Option.some
        { user_id := ud.get "user_id", user_context := ctx, journey := j })

/-- `GQuery` program of `find_conversion_paths`. -/
def find_conversion_pathsQ (limit : Nat) : GQuery (List PathEntry) :=
  GQuery.bind (find_sessions_by_outcomeQ "purchase" limit) fun ss =>
  GQuery.filterMapM convEntryQ ss

/-- `GQuery` program of `churnEntry`. -/
def churnEntryQ (s : String) : GQuery (Option PathEntry) :=
  GQuery.bind (userPredOfQ s) fun ou =>
  match ou with
  | Option.none => GQuery.pure Option.none
  | Option.some u =>
    GQuery.bind (GQuery.nodeDataQ u) fun ud =>
    GQuery.bind (getUserContextAQ (ud.get "user_id")) fun octx =>
    match octx with
    | Option.none => GQuery.pure Option.none
    | Option.some ctx =>
      if pyTruthy ctx.churned then
        GQuery.bind (GQuery.nodeDataQ s) fun sd =>
        GQuery.bind (extractByNameQ ("user_" ++ pyStr (ud.get "user_id")) 1) fun js =>
        match js.find? (fun j => decide (j.session_id = sd.get "session_id")) with
        | Option.none => GQuery.pure Option.none
        | Option.some j =>
          GQuery.pure (Option.some
            { user_id := ud.get "user_id", user_context := Option.some ctx, journey := j })
      else GQuery.pure Option.none

/-- `GQuery` program of `find_churn_paths`. -/
def find_churn_pathsQ (limit : Nat) : GQuery (List PathEntry) :=
  GQuery.bind (find_sessions_by_outcomeQ "exit" limit) fun ss =>
  GQuery.filterMapM churnEntryQ ss

/-- `GQuery` program of the `find_common_patterns` scan loop. -/
def fcpGoQ (filt : List (String × AttrValue)) (limit : Nat) :
    List (String × Attrs) → List (String × Nat) → Nat → GQuery (List (String × Nat))
  | [], c, _ => GQuery.pure c
  | (_, d) :: rest, c, k =>
    if d.get "node_type" ≠ AttrValue.str "User" then fcpGoQ filt limit rest c k
    else if ¬ userMatches d filt then fcpGoQ filt limit rest c k
    else
      GQuery.bind (extractByNameQ ("user_" ++ pyStr (d.get "user_id")) 5) fun js =>
      let r := tallyJourneys limit js c k
      if limit ≤ r.2 then GQuery.pure r.1 else fcpGoQ filt limit rest r.1 r.2

/-- `GQuery` program of `find_common_patterns`. -/
def find_common_patternsQ (filt : List (String × AttrValue)) (limit : Nat) :
    GQuery (List (String × Nat × ℚ)) :=
  GQuery.bind GQuery.nodesQ fun ns =>
  GQuery.bind (fcpGoQ filt limit ns [] 0) fun c =>
  GQuery.pure ((mostCommon c 10).map
    (fun p => (p.1, p.2, if 0 < sumCounts c then (p.2 : ℚ) / (sumCounts c : ℚ) * 100 else 0)))

/-- `GQuery` program of the `analyze_cohort` scan loop. -/
def cohortGoQ (filt : List (String × AttrValue)) (sample_size : Nat) :
    List (String × Attrs) → CohortAcc → GQuery CohortAcc
  | [], a => GQuery.pure a
  | (_, d) :: rest, a =>
    if d.get "node_type" ≠ AttrValue.str "User" then cohortGoQ filt sample_size rest a
    else if ¬ userMatches d filt then cohortGoQ filt sample_size rest a
    else
      GQuery.bind (extractByNameQ ("user_" ++ pyStr (d.get "user_id")) 3) fun js =>
      let a' := js.foldl accJourney { a with users := a.users ++ [d] }
      if sample_size ≤ a'.sessions.length then GQuery.pure a'
      else cohortGoQ filt sample_size rest a'

/-- `GQuery` program of `analyze_cohort`. -/
def analyze_cohortQ (filt : List (String × AttrValue)) (sample_size : Nat) :
    GQuery CohortStats :=
  GQuery.bind GQuery.nodesQ fun ns =>
  GQuery.bind (cohortGoQ filt sample_size ns ⟨[], [], [], 0, 0⟩) fun a =>
  GQuery.pure
    { user_count := a.users.length
      session_count := a.sessions.length
      avg_events_per_session := pyRound (rawAvgEvents a) 2
      avg_ltv := pyRound (rawAvgLtv a) 2
      purchase_events := a.purchase_count
      cart_add_events := a.cart_add_count
      conversion_rate := pyRound (rawConvRate a) 1 }

/-- `GQuery` program of `compare_cohorts`. -/
def compare_cohortsQ (fA fB : List (String × AttrValue)) (sample_size : Nat) :
    GQuery CohortComparison :=
  GQuery.bind (analyze_cohortQ fA sample_size) fun a =>
  GQuery.bind (analyze_cohortQ fB sample_size) fun b =>
  GQuery.pure
    { statsA := a
      statsB := b
      events_diff := pyRound (a.avg_events_per_session - b.avg_events_per_session) 2
      ltv_diff := pyRound (a.avg_ltv - b.avg_ltv) 2
      conversion_diff := pyRound (a.conversion_rate - b.conversion_rate) 1 }

/-- `GQuery` program of `nextPredOf`. -/
def nextPredOfQ (cur : String) : GQuery (Option String) :=
  GQuery.bind (GQuery.predQ cur) fun ps =>
  GQuery.findM (fun p =>
    GQuery.bind (GQuery.edgeDataQ p cur) fun ed =>
    GQuery.pure (decide (ed.get "edge_type" = AttrValue.str "NEXT"))) ps

/-- `GQuery` program of the fuel-bounded backward walk. -/
def backWalkFuelQ : Nat → String → GQuery (List String)
  | 0, _ => GQuery.pure []
  | Nat.succ k, cur =>
    GQuery.bind (nextPredOfQ cur) fun op =>
    match op with
    | Option.none => GQuery.pure []
    | Option.some p =>
      GQuery.bind (backWalkFuelQ k p) fun rest => GQuery.pure (p :: rest)

/-- `GQuery` program of the 20-hop backward walk. -/
def nextBackWalkQ (start : String) : GQuery (List String) :=
  backWalkFuelQ 20 start

/-- `GQuery` program of `firstProductSucc`. -/
def firstProductSuccQ (n : String) : GQuery (Option String) :=
  GQuery.bind (GQuery.succQ n) fun ss =>
  GQuery.findM (fun s =>
    GQuery.bind (GQuery.nodeDataQ s) fun sd =>
    GQuery.pure (decide (sd.get "node_type" = AttrValue.str "Product"))) ss

/-- `GQuery` program of `purchasedMatches`. -/
def purchasedMatchesQ (cf : String) (n : String) : GQuery Bool :=
  GQuery.bind (firstProductSuccQ n) fun op =>
  match op with
  | Option.some p =>
    GQuery.bind (GQuery.nodeDataQ p) fun pd =>
    GQuery.pure (decide (pd.get "category" = AttrValue.str cf))
  | Option.none => GQuery.pure false

/-- `GQuery` program of `tallyStepProducts`. -/
def tallyStepProductsQ (st : List (AttrValue × Nat) × List (AttrValue × Nat))
    (p : String) : GQuery (List (AttrValue × Nat) × List (AttrValue × Nat)) :=
  GQuery.bind (GQuery.nodeDataQ p) fun d =>
  let et := d.get "event_type"
  if et = AttrValue.str "page_view" ∨ et = AttrValue.str "click" then
    GQuery.bind (GQuery.succQ p) fun ss =>
    GQuery.bind (GQuery.filterM (fun s =>
        GQuery.bind (GQuery.nodeDataQ s) fun sd =>
        GQuery.pure (decide (sd.get "node_type" = AttrValue.str "Product"))) ss) fun prods =>
    GQuery.foldlM (fun st s =>
        GQuery.bind (GQuery.nodeDataQ s) fun sd =>
        GQuery.pure
          (cincr st.1 (sd.getD "category" (AttrValue.str "Unknown")),
           cincr st.2 (sd.getD "name" (AttrValue.str "Unknown")))) st prods
  else GQuery.pure st

/-- `GQuery` program of the `find_products_before_purchase` scan loop. -/
def fpbGoQ (cf : Option String) (limit : Nat) :
    List (String × Attrs) → List (AttrValue × Nat) × List (AttrValue × Nat) × Nat →
      GQuery (List (AttrValue × Nat) × List (AttrValue × Nat) × Nat)
  | [], st => GQuery.pure st
  | (n, d) :: rest, (cats, prods, tot) =>
    if d.get "node_type" ≠ AttrValue.str "Event" then fpbGoQ cf limit rest (cats, prods, tot)
    else if d.get "event_type" ≠ AttrValue.str "purchase" then
      fpbGoQ cf limit rest (cats, prods, tot)
    else
      GQuery.bind (match cf with
        | Option.some c =>
          GQuery.bind (purchasedMatchesQ c n) fun pm =>
          GQuery.pure (decide (c ≠ "") && ! pm)
        | Option.none => GQuery.pure false) fun skip =>
      if skip then fpbGoQ cf limit rest (cats, prods, tot)
      else
        GQuery.bind (nextBackWalkQ n) fun chain =>
        GQuery.bind (GQuery.foldlM tallyStepProductsQ (cats, prods) chain) fun st2 =>
        if limit ≤ tot + 1 then GQuery.pure (st2.1, st2.2, tot + 1)
        else fpbGoQ cf limit rest (st2.1, st2.2, tot + 1)

/-- `GQuery` program of `find_products_before_purchase`. -/
def find_products_before_purchaseQ (cf : Option String) (limit : Nat) :
    GQuery ProductsBeforePurchase :=
  GQuery.bind GQuery.nodesQ fun ns =>
  GQuery.bind (fpbGoQ cf limit ns ([], [], 0)) fun st =>
  GQuery.pure
    { total_purchases_analyzed := st.2.2
      categories_viewed_before_purchase := mostCommon st.1 10
      top_products_viewed := mostCommon st.2.1 10 }

/-- `GQuery` program of `stepSeesCategory`. -/
def stepSeesCategoryQ (cat : String) (p : String) : GQuery Bool :=
  GQuery.bind (GQuery.succQ p) fun ss =>
  GQuery.anyM (fun s =>
    GQuery.bind (GQuery.nodeDataQ s) fun sd =>
    GQuery.pure (decide (sd.get "node_type" = AttrValue.str "Product" ∧
      sd.get "category" = AttrValue.str cat))) ss

/-- `GQuery` program of the `find_exit_points_after_category` scan loop. -/
def epsGoQ (cat : String) (limit : Nat) :
    List (String × Attrs) → Nat × List (AttrValue × Nat) × List Nat →
      GQuery (Nat × List (AttrValue × Nat) × List Nat)
  | [], st => GQuery.pure st
  | (n, d) :: rest, (exits, pats, counts) =>
    if d.get "node_type" ≠ AttrValue.str "Event" then epsGoQ cat limit rest (exits, pats, counts)
    else if d.get "event_type" ≠ AttrValue.str "exit" then
      epsGoQ cat limit rest (exits, pats, counts)
    else
      GQuery.bind (nextBackWalkQ n) fun chain =>
      GQuery.bind (GQuery.foldlM (fun ps p =>
          GQuery.bind (stepSeesCategoryQ cat p) fun sees =>
          if sees then
            GQuery.bind (GQuery.nodeDataQ p) fun pd =>
            GQuery.pure (cincr ps (pd.getD "event_type" (AttrValue.str "unknown")))
          else GQuery.pure ps) pats chain) fun pats2 =>
      GQuery.bind (GQuery.anyM (stepSeesCategoryQ cat) chain) fun viewed =>
      let exits' := if viewed then exits + 1 else exits
      let counts' := if viewed then counts ++ [chain.length] else counts
      if limit ≤ exits' then GQuery.pure (exits', pats2, counts')
      else epsGoQ cat limit rest (exits', pats2, counts')

/-- `GQuery` program of `find_exit_points_after_category`. -/
def find_exit_points_after_categoryQ (cat : String) (limit : Nat) : GQuery ExitPoints :=
  GQuery.bind GQuery.nodesQ fun ns =>
  GQuery.bind (epsGoQ cat limit ns (0, [], [])) fun st =>
  GQuery.pure
    { category := cat
      exits_after_viewing := st.1
      avg_events_before_exit := pyRound
        (if st.2.2 = [] then 0
         else ((st.2.2.map (fun n => (n : ℚ))).sum) / (st.2.2.length : ℚ)) 2
      last_event_before_exit := mostCommon st.2.1 5 }

/-- `GQuery` program of `query_churned_user_journeys`. -/
def query_churned_user_journeysQ (sample_size : Nat) : GQuery String :=
  GQuery.bind (find_churn_pathsQ sample_size) fun paths =>
  GQuery.bind (find_common_patternsQ [("churned", AttrValue.bool true)] 100) fun patterns =>
  GQuery.pure (serialize_journeys_for_llm paths 5 true ++ "\n\n" ++
    serialize_patterns_for_llm patterns "churned user journey patterns")

/-- `GQuery` program of `query_high_vs_low_ltv`. -/
def query_high_vs_low_ltvQ : GQuery String :=
  GQuery.bind (compare_cohortsQ
    [("segment", AttrValue.str "high_value")] [("segment", AttrValue.str "low")] 50)
    fun comparison =>
  GQuery.bind (find_common_patternsQ [("segment", AttrValue.str "high_value")] 50)
    fun high_patterns =>
  GQuery.bind (find_common_patternsQ [("segment", AttrValue.str "low")] 50)
    fun low_patterns =>
  GQuery.pure (serialize_comparison_for_llm comparison "High-Value Users" "Low-Value Users"
    ++ "\n\n" ++ serialize_patterns_for_llm high_patterns "high-value user patterns"
    ++ "\n\n" ++ serialize_patterns_for_llm low_patterns "low-value user patterns")

/-- `GQuery` program of `query_pre_purchase_behavior`. -/
def query_pre_purchase_behaviorQ (category : Option String) : GQuery String :=
  GQuery.bind (find_products_before_purchaseQ category 50) fun pre =>
  GQuery.bind (find_conversion_pathsQ 20) fun conv =>
  GQuery.pure (renderPrePurchase pre conv category)

/-- `GQuery` program of `query_category_exit_analysis`. -/
def query_category_exit_analysisQ (category : String) : GQuery String :=
  GQuery.bind (find_exit_points_after_categoryQ category 50) fun e =>
  GQuery.pure (renderCategoryExit e category)

theorem insertStable_perm (le : α → α → Bool) (a : α) :
    ∀ l : List α, List.Perm (insertStable le a l) (a :: l) := by
  intro l
  induction l with
  | nil => simp [insertStable]
  | cons b bs ih =>
    simp only [insertStable]
    by_cases h : le b a
    · simp only [h, if_pos]
      exact (ih.cons b).trans (List.Perm.swap a b bs)
    · simp [h]

theorem foldl_insertStable_perm (le : α → α → Bool) :
    ∀ (l acc : List α),
      List.Perm (l.foldl (fun acc a => insertStable le a acc) acc) (acc ++ l) := by
  intro l
  induction l with
  | nil => simp
  | cons x xs ih =>
    intro acc
    have h1 : (x :: xs).foldl (fun acc a => insertStable le a acc) acc
        = xs.foldl (fun acc a => insertStable le a acc) (insertStable le x acc) := rfl
    rw [h1]
    have h2 := ih (insertStable le x acc)
    have h3 : List.Perm (insertStable le x acc ++ xs) ((x :: acc) ++ xs) :=
      (insertStable_perm le x acc).append_right xs
    have h4 : List.Perm ((x :: acc) ++ xs) (acc ++ x :: xs) := List.perm_middle.symm
    exact (h2.trans h3).trans h4

/-- `stableSort` permutes its input. -/
theorem stableSort_perm (le : α → α → Bool) (l : List α) :
    List.Perm (stableSort le l) l := by
  simpa using foldl_insertStable_perm le l []

theorem insertStable_pairwise (le : α → α → Bool)
    (trans : ∀ a b c, le a b = true → le b c = true → le a c = true)
    (total : ∀ a b, le a b = true ∨ le b a = true)
    (a : α) : ∀ l : List α, l.Pairwise (fun x y => le x y = true) →
      (insertStable le a l).Pairwise (fun x y => le x y = true) := by
  intro l
  induction l with
  | nil => simp [insertStable]
  | cons b bs ih =>
    intro hp
    rw [List.pairwise_cons] at hp
    obtain ⟨hb, hbs⟩ := hp
    simp only [insertStable]
    by_cases h : le b a
    · simp only [h, if_pos]
      rw [List.pairwise_cons]
      refine ⟨?_, ih hbs⟩
      intro x hx
      rcases List.mem_cons.mp ((insertStable_perm le a bs).mem_iff.mp hx) with hxa | hxbs
      · subst hxa; exact h
      · exact hb x hxbs
    · simp only [h, if_neg, Bool.not_eq_true]
      rw [List.pairwise_cons]
      constructor
      · intro x hx
        rcases List.mem_cons.mp hx with hxb | hxbs
        · subst hxb
          rcases total a x with h1 | h2
          · exact h1
          · exact absurd h2 (by simpa using h)
        · have hab : le a b = true := by
            rcases total a b with h1 | h2
            · exact h1
            · exact absurd h2 (by simpa using h)
          exact trans a b x hab (hb x hxbs)
      · exact List.pairwise_cons.mpr ⟨hb, hbs⟩

/-- `stableSort` sorts, for any transitive and total boolean comparison. -/
theorem stableSort_pairwise (le : α → α → Bool)
    (trans : ∀ a b c, le a b = true → le b c = true → le a c = true)
    (total : ∀ a b, le a b = true ∨ le b a = true)
    (l : List α) : (stableSort le l).Pairwise (fun x y => le x y = true) := by
  suffices h : ∀ (l acc : List α), acc.Pairwise (fun x y => le x y = true) →
      (l.foldl (fun acc a => insertStable le a acc) acc).Pairwise
        (fun x y => le x y = true) by
    exact h l [] (by simp)
  intro l
  induction l with
  | nil => intro acc h; simpa using h
  | cons x xs ih =>
    intro acc hacc
    exact ih _ (insertStable_pairwise le trans total x acc hacc)

theorem natListLe_cons_iff {a b : Nat} {as bs : List Nat} :
    natListLe (a :: as) (b :: bs) = true ↔ a < b ∨ (a = b ∧ natListLe as bs = true) := by
  simp only [natListLe]
  by_cases h1 : a < b
  · simp [h1]
  · by_cases h2 : b < a
    · simp [h1, h2]; omega
    · have h3 : a = b := by omega
      simp [h1, h2, h3]

theorem natListLe_trans : ∀ a b c : List Nat,
    natListLe a b = true → natListLe b c = true → natListLe a c = true := by
  intro a
  induction a with
  | nil => intro b c _ _; rfl
  | cons x xs ih =>
    intro b c hab hbc
    cases b with
    | nil => simp [natListLe] at hab
    | cons y ys =>
      cases c with
      | nil => simp [natListLe] at hbc
      | cons z zs =>
        rw [natListLe_cons_iff] at hab hbc ⊢
        rcases hab with h1 | ⟨h1, h1r⟩ <;> rcases hbc with h2 | ⟨h2, h2r⟩
        · left; omega
        · left; omega
        · left; omega
        · right; exact ⟨by omega, ih ys zs h1r h2r⟩

theorem natListLe_total : ∀ a b : List Nat,
    natListLe a b = true ∨ natListLe b a = true := by
  intro a
  induction a with
  | nil => intro b; left; rfl
  | cons x xs ih =>
    intro b
    cases b with
    | nil => right; rfl
    | cons y ys =>
      rw [natListLe_cons_iff, natListLe_cons_iff]
      rcases Nat.lt_trichotomy x y with h | h | h
      · left; left; exact h
      · rcases ih ys with h2 | h2
        · left; right; exact ⟨h, h2⟩
        · right; right; exact ⟨h.symm, h2⟩
      · right; left; exact h

theorem strLe_trans (a b c : String) :
    strLe a b = true → strLe b c = true → strLe a c = true :=
  natListLe_trans _ _ _

theorem strLe_total (a b : String) : strLe a b = true ∨ strLe b a = true :=
  natListLe_total _ _

theorem attrLe_trans : ∀ a b c : AttrValue,
    attrLe a b = true → attrLe b c = true → attrLe a c = true := by
  intro a b c hab hbc
  cases a <;> cases b <;> cases c <;>
    simp_all [attrLe, AttrValue.rank] <;>
    first
      | omega
      | (exact le_trans hab hbc)
      | (exact strLe_trans _ _ _ hab hbc)
      | (rename_i x y z; revert hab hbc; cases x <;> cases y <;> cases z <;> simp)

theorem attrLe_total : ∀ a b : AttrValue,
    attrLe a b = true ∨ attrLe b a = true := by
  intro a b
  cases a <;> cases b <;>
    simp_all [attrLe, AttrValue.rank] <;>
    first
      | omega
      | (exact le_total _ _)
      | (exact strLe_total _ _)
      | (rename_i x y; cases x <;> cases y <;> simp)

theorem pyRoundInt_intCast (z : ℤ) : pyRoundInt (z : ℚ) = z := by
  simp [pyRoundInt]

/-- `round` fixes every exact multiple of `10⁻ᵈ`. -/
theorem pyRound_int_div (z : ℤ) (d : ℕ) : pyRound ((z : ℚ) / 10 ^ d) d = (z : ℚ) / 10 ^ d := by
  have h10 : (10 : ℚ) ^ d ≠ 0 := by positivity
  unfold pyRound
  rw [div_mul_cancel₀ _ h10, pyRoundInt_intCast]

/-- The difference of two `d`-rounded values is itself fixed by `round`:
the algebraic fact behind exactness of the cohort deltas. -/
theorem pyRound_sub_pyRound (x y : ℚ) (d : ℕ) :
    pyRound (pyRound x d - pyRound y d) d = pyRound x d - pyRound y d := by
  have hx : pyRound x d = ((pyRoundInt (x * 10 ^ d) : ℤ) : ℚ) / 10 ^ d := rfl
  have hy : pyRound y d = ((pyRoundInt (y * 10 ^ d) : ℤ) : ℚ) / 10 ^ d := rfl
  rw [hx, hy, div_sub_div_same]
  rw [show ((pyRoundInt (x * 10 ^ d) : ℤ) : ℚ) - ((pyRoundInt (y * 10 ^ d) : ℤ) : ℚ)
      = ((pyRoundInt (x * 10 ^ d) - pyRoundInt (y * 10 ^ d) : ℤ) : ℚ) by push_cast; ring]
  exact pyRound_int_div _ d

/-! ## Helper lemmas -/

theorem pyRoundInt_zero : pyRoundInt 0 = 0 := by
  simp [pyRoundInt]

theorem pyRound_zero (d : ℕ) : pyRound 0 d = 0 := by
  simp [pyRound, pyRoundInt_zero]

theorem pyNumStr_zero : pyNumStr 0 = "0" := by
  simp [pyNumStr, Rat.den_zero, Rat.num_zero]
  rfl

theorem intercalate_go_eq (sep : String) :
    ∀ (l : List String) (acc : String),
      String.intercalate.go acc sep l = acc ++ joinRest sep l := by
  intro l
  induction l with
  | nil => intro acc; simp [String.intercalate.go, joinRest]
  | cons a as ih =>
    intro acc
    rw [show String.intercalate.go acc sep (a :: as)
        = String.intercalate.go (acc ++ sep ++ a) sep as from rfl]
    rw [ih]
    simp [joinRest, String.append_assoc]

/-- Lean's `String.intercalate` agrees with the recursive join. -/
theorem intercalate_eq_joinSep (sep : String) :
    ∀ l : List String, String.intercalate sep l = joinSep sep l := by
  intro l
  match l with
  | [] => rfl
  | [a] =>
    rw [show String.intercalate sep [a] = String.intercalate.go a sep [] from rfl]
    simp [intercalate_go_eq, joinRest, joinSep]
  | a :: b :: xs =>
    rw [show String.intercalate sep (a :: b :: xs)
        = String.intercalate.go a sep (b :: xs) from rfl]
    rw [intercalate_go_eq]
    have h : ∀ (y : String) (ys : List String),
        joinSep sep (y :: ys) = y ++ joinRest sep ys := by
      intro y ys
      induction ys generalizing y with
      | nil => simp [joinSep, joinRest]
      | cons z zs ih => simp [joinSep, joinRest, ih, String.append_assoc]
    rw [h a (b :: xs)]

theorem listHasInfix_append_left {α : Type} [DecidableEq α] (pat b : List α) :
    ∀ a : List α, listHasInfix pat b = true → listHasInfix pat (a ++ b) = true := by
  intro a
  induction a with
  | nil => intro h; simpa using h
  | cons x xs ih =>
    intro h
    simp only [List.cons_append, listHasInfix, Bool.or_eq_true]
    right
    exact ih h

theorem isPrefixOf_append {α : Type} [DecidableEq α] :
    ∀ (pat l b : List α), pat.isPrefixOf l = true → pat.isPrefixOf (l ++ b) = true := by
  intro pat
  induction pat with
  | nil => intro l b _; simp [List.isPrefixOf]
  | cons p ps ih =>
    intro l b h
    cases l with
    | nil => simp [List.isPrefixOf] at h
    | cons x xs =>
      simp only [List.isPrefixOf, Bool.and_eq_true] at h ⊢
      exact ⟨h.1, ih xs b h.2⟩

theorem listHasInfix_append_right {α : Type} [DecidableEq α] :
    ∀ (pat a b : List α), listHasInfix pat a = true → listHasInfix pat (a ++ b) = true := by
  intro pat a
  induction a with
  | nil =>
    intro b h
    simp only [listHasInfix, decide_eq_true_eq] at h
    subst h
    cases b <;> simp [listHasInfix]
  | cons x xs ih =>
    intro b h
    simp only [listHasInfix, Bool.or_eq_true] at h
    simp only [List.cons_append, listHasInfix, Bool.or_eq_true]
    rcases h with h | h
    · left
      exact isPrefixOf_append pat (x :: xs) b h
    · right
      exact ih b h

/-- Substring containment is preserved by appending on the left. -/
theorem hasSubstr_append_left (a b pat : String) :
    hasSubstr b pat = true → hasSubstr (a ++ b) pat = true := by
  intro h
  simp only [hasSubstr, String.data_append]
  exact listHasInfix_append_left pat.data b.data a.data h

/-- Substring containment is preserved by appending on the right. -/
theorem hasSubstr_append_right (a b pat : String) :
    hasSubstr a pat = true → hasSubstr (a ++ b) pat = true := by
  intro h
  simp only [hasSubstr, String.data_append]
  exact listHasInfix_append_right pat.data a.data b.data h

theorem backWalkFuel_length_le (G : Graph) :
    ∀ (fuel : Nat) (start : String), (backWalkFuel G fuel start).length ≤ fuel := by
  intro fuel
  induction fuel with
  | zero => intro s; simp [backWalkFuel]
  | succ k ih =>
    intro s
    simp only [backWalkFuel]
    cases nextPredOf G s with
    | none => simp
    | some p =>
      simp only [List.length_cons]
      have := ih p
      omega

/-! ## Claim theorems -/

/-- C5.  For every user id whose user node `f"user_{user_id}"` is not
present in the graph, `extract_user_journeys` returns the empty list and
`get_user_context` returns `None`; both are total functions, so neither
can raise. -/
theorem c5_absent_user_empty_results (G : Graph) (uid : ℤ) (m : Nat)
    (h : G.member ("user_" ++ toString uid) = false) :
    extract_user_journeys G uid m = [] ∧ get_user_context G uid = Option.none := by
  constructor
  · simp [extract_user_journeys, extractByName, h]
  · simp [get_user_context, getUserContextA, pyStr, h]

/-- Witness for C5 at the empty graph and user id 999. -/
theorem c5_absent_user_empty_results_witness :
    extract_user_journeys emptyGraph 999 10 = [] ∧
      get_user_context emptyGraph 999 = Option.none :=
  c5_absent_user_empty_results emptyGraph 999 10 (by decide)

/-- C7.  Every backward walk along inbound NEXT edges is capped at 20 hops
(`nextBackWalk` is the walk both `find_products_before_purchase` and
`find_exit_points_after_category` iterate over), for every graph — cyclic
NEXT chains included; and both functions evaluate (hence terminate) on a
concrete graph whose two NEXT edges form a cycle. -/
theorem c7_backwalk_bounded :
    (∀ (G : Graph) (start : String), (nextBackWalk G start).length ≤ 20) ∧
    find_products_before_purchase cycleG Option.none 50 =
      { total_purchases_analyzed := 1
        categories_viewed_before_purchase := [(AttrValue.str "Electronics", 10)]
        top_products_viewed := [(AttrValue.str "Widget", 10)] } ∧
    find_exit_points_after_category cycleG "Electronics" 50 =
      { category := "Electronics", exits_after_viewing := 0
        avg_events_before_exit := 0, last_event_before_exit := [] } := by
  refine ⟨fun G start => backWalkFuel_length_le G 20 start, by decide, ?_⟩
  have hst : epsGo cycleG "Electronics" 50 cycleG.nodes (0, [], []) = (0, [], []) := by
    decide
  simp [find_exit_points_after_category, hst, pyRound_zero, mostCommon, stableSort]

/-- C8.  `extract_journey_pattern []` is the empty string, and on every
event sequence the result is exactly the event types joined in sequence
order by the fixed separator `" → "` (`joinSep` is the recursive
characterization of Python's `str.join`); as a Lean function it is pure by
construction. -/
theorem c8_pattern_join_spec :
    extract_journey_pattern [] = "" ∧
    ∀ evs : List EventView,
      extract_journey_pattern evs
        = joinSep " → " (evs.map (fun e => asStr e.event_type)) := by
  constructor
  · rfl
  · intro evs
    simp [extract_journey_pattern, intercalate_eq_joinSep]

/-- C3.  For every graph, every pair of cohort filters and every sample
size, the comparison block of `compare_cohorts` equals `statsA.metric −
statsB.metric` exactly for each reported metric: since both stats are
already rounded to the fixed precision (2 decimals for events/ltv, 1 for
rate), their difference is an exact multiple of that precision and the
final `round` fixes it (exact-rational model of Python's arithmetic). -/
theorem c3_cohort_deltas_exact (G : Graph) (fA fB : List (String × AttrValue)) (sz : Nat) :
    (compare_cohorts G fA fB sz).events_diff
        = (compare_cohorts G fA fB sz).statsA.avg_events_per_session
          - (compare_cohorts G fA fB sz).statsB.avg_events_per_session ∧
    (compare_cohorts G fA fB sz).ltv_diff
        = (compare_cohorts G fA fB sz).statsA.avg_ltv
          - (compare_cohorts G fA fB sz).statsB.avg_ltv ∧
    (compare_cohorts G fA fB sz).conversion_diff
        = (compare_cohorts G fA fB sz).statsA.conversion_rate
          - (compare_cohorts G fA fB sz).statsB.conversion_rate :=
  ⟨pyRound_sub_pyRound (rawAvgEvents (cohortAccOf G fA sz))
      (rawAvgEvents (cohortAccOf G fB sz)) 2,
   pyRound_sub_pyRound (rawAvgLtv (cohortAccOf G fA sz))
      (rawAvgLtv (cohortAccOf G fB sz)) 2,
   pyRound_sub_pyRound (rawConvRate (cohortAccOf G fA sz))
      (rawConvRate (cohortAccOf G fB sz)) 1⟩

theorem tsLe_trans (a b c : EventView) :
    tsLe a b = true → tsLe b c = true → tsLe a c = true :=
  attrLe_trans a.timestamp b.timestamp c.timestamp

theorem tsLe_total (a b : EventView) : tsLe a b = true ∨ tsLe b a = true :=
  attrLe_total a.timestamp b.timestamp

/-- C2 (counterexample).  On `tieG` the two events of the session carry the
same timestamp, and the returned order is `event_id 2` before `event_id 1`
— the enumeration (edge-insertion) order, not the event-id order the claim
asserts: the tie is not broken by event id, so the returned order is not a
function of the event set alone. -/
theorem c2_tie_not_broken_by_event_id :
    (extract_user_journeys tieG 1 10).map
        (fun j => j.events.map (fun e => (e.timestamp, e.event_id)))
      = [[(AttrValue.str "T", AttrValue.int 2), (AttrValue.str "T", AttrValue.int 1)]] ∧
    attrLe (AttrValue.int 2) (AttrValue.int 1) = false := by
  constructor
  · decide
  · decide

/-- C2 (amended).  Every Journey returned by `extract_user_journeys` has
its events sorted non-decreasing by timestamp (`tsLe`, Python's comparison
of the timestamp values); equal timestamps keep the stable sort's
enumeration order — the source has no event-id tie-break. -/
theorem c2_events_sorted_by_timestamp (G : Graph) (uid : ℤ) (m : Nat) (j : Journey)
    (hj : j ∈ extract_user_journeys G uid m) :
    j.events.Pairwise (fun a b => tsLe a b = true) := by
  unfold extract_user_journeys extractByName at hj
  by_cases h : G.member ("user_" ++ toString uid) = true
  · rw [if_pos h] at hj
    obtain ⟨s, _, rfl⟩ := List.mem_map.mp hj
    show (sessionJourney G s).events.Pairwise (fun a b => tsLe a b = true)
    unfold sessionJourney sessionEvents
    exact stableSort_pairwise tsLe tsLe_trans tsLe_total _
  · rw [if_neg h] at hj
    simp at hj

/-- Witness for C2's amended theorem: the test-fixture graph, whose single
journey is returned sorted. -/
theorem c2_events_sorted_by_timestamp_witness :
    (sessionJourney sampleG "session_1").events.Pairwise (fun a b => tsLe a b = true) :=
  c2_events_sorted_by_timestamp sampleG 1 10 (sessionJourney sampleG "session_1")
    (by decide)

theorem Attrs.get_set_ne (a : Attrs) (k k' : String) (v : AttrValue) (h : k' ≠ k) :
    (a.set k v).get k' = a.get k' := by
  induction a with
  | nil =>
    have h1 : decide (k = k') = false := by simp [Ne.symm h]
    simp [Attrs.set, Attrs.get, List.find?, h1]
  | cons p ps ih =>
    simp only [Attrs.set]
    by_cases hp : p.1 = k
    · rw [if_pos hp]
      simp only [Attrs.get, List.find?]
      have h1 : decide (k = k') = false := by simp [Ne.symm h]
      have h2 : decide (p.1 = k') = false := by simp [hp ▸ Ne.symm h]
      rw [h1, h2]
    · rw [if_neg hp]
      simp only [Attrs.get, List.find?] at ih ⊢
      by_cases hpk : p.1 = k'
      · simp [hpk]
      · have h2 : decide (p.1 = k') = false := by simp [hpk]
        rw [h2]
        exact ih

theorem find?_map_keyPreserving (l : List (String × Attrs))
    (f : String × Attrs → String × Attrs) (hf : ∀ p, (f p).1 = p.1) (n : String) :
    (l.map f).find? (fun p => decide (p.1 = n))
      = (l.find? (fun p => decide (p.1 = n))).map f := by
  induction l with
  | nil => rfl
  | cons p ps ih =>
    simp only [List.map_cons, List.find?]
    rw [hf p]
    by_cases h : p.1 = n
    · simp [h]
    · have h2 : decide (p.1 = n) = false := by simp [h]
      rw [h2]
      exact ih

theorem nodeData_setSess (G : Graph) (v : AttrValue) (n : String) :
    (setSessionEventCount G v).nodeData n
      = (if (G.nodeData n).get "node_type" = AttrValue.str "Session"
         then (G.nodeData n).set "event_count" v else G.nodeData n) := by
  unfold setSessionEventCount Graph.nodeData
  rw [find?_map_keyPreserving _ _ (fun p => by by_cases h : p.2.get "node_type" = AttrValue.str "Session" <;> simp [h]) n]
  cases hfind : G.nodes.find? (fun p => decide (p.1 = n)) with
  | none =>
    simp only [Option.map_none]
    have : Attrs.get [] "node_type" = AttrValue.none := rfl
    rw [this]
    simp
  | some p =>
    simp only [Option.map_some]
    by_cases h : p.2.get "node_type" = AttrValue.str "Session" <;> simp [h]

theorem member_setSess (G : Graph) (v : AttrValue) (n : String) :
    (setSessionEventCount G v).member n = G.member n := by
  unfold setSessionEventCount Graph.member
  suffices hgen : ∀ l : List (String × Attrs),
      (l.map (fun p => if p.2.get "node_type" = AttrValue.str "Session"
        then (p.1, p.2.set "event_count" v) else p)).any (fun p => decide (p.1 = n))
      = l.any (fun p => decide (p.1 = n)) by
    exact hgen G.nodes
  intro l
  induction l with
  | nil => rfl
  | cons p ps ih =>
    simp only [List.map_cons, List.any_cons, ih]
    by_cases h : p.2.get "node_type" = AttrValue.str "Session" <;> simp [h]

theorem get_nodeData_setSess_ne (G : Graph) (v : AttrValue) (n : String) (k : String)
    (h : k ≠ "event_count") :
    ((setSessionEventCount G v).nodeData n).get k = (G.nodeData n).get k := by
  rw [nodeData_setSess]
  by_cases hs : (G.nodeData n).get "node_type" = AttrValue.str "Session"
  · rw [if_pos hs]
    exact Attrs.get_set_ne _ _ _ _ h
  · rw [if_neg hs]

theorem nodeData_setSess_of_ne_session (G : Graph) (v : AttrValue) (n : String)
    (h : (G.nodeData n).get "node_type" ≠ AttrValue.str "Session") :
    (setSessionEventCount G v).nodeData n = G.nodeData n := by
  rw [nodeData_setSess, if_neg h]

theorem eventView_setSess (G : Graph) (v : AttrValue) (e : String) :
    eventView (setSessionEventCount G v) e = eventView G e := by
  simp only [eventView]
  have hsucc : (setSessionEventCount G v).successors e = G.successors e := rfl
  rw [hsucc]
  have hne : ∀ k, k ≠ "event_count" →
      ((setSessionEventCount G v).nodeData e).get k = (G.nodeData e).get k :=
    fun k hk => get_nodeData_setSess_ne G v e k hk
  have hfilter : (G.successors e).filter
        (fun p => decide (((setSessionEventCount G v).nodeData p).get "node_type"
          = AttrValue.str "Product"))
      = (G.successors e).filter
        (fun p => decide ((G.nodeData p).get "node_type" = AttrValue.str "Product")) := by
    apply List.filter_congr
    intro p _
    rw [get_nodeData_setSess_ne G v p "node_type" (by decide)]
  rw [hne "event_id" (by decide), hne "event_type" (by decide),
    hne "timestamp" (by decide), hne "page_url" (by decide), hfilter]
  have hmap : ((G.successors e).filter
        (fun p => decide ((G.nodeData p).get "node_type" = AttrValue.str "Product"))).map
          (setSessionEventCount G v).nodeData
      = ((G.successors e).filter
        (fun p => decide ((G.nodeData p).get "node_type" = AttrValue.str "Product"))).map
          G.nodeData := by
    apply List.map_congr_left
    intro p hp
    have hprod : (G.nodeData p).get "node_type" = AttrValue.str "Product" := by
      have := List.of_mem_filter hp
      simpa using this
    apply nodeData_setSess_of_ne_session
    rw [hprod]
    decide
  rw [hmap]

theorem sessionEvents_setSess (G : Graph) (v : AttrValue) (s : String) :
    sessionEvents (setSessionEventCount G v) s = sessionEvents G s := by
  unfold sessionEvents
  have hsucc : (setSessionEventCount G v).successors s = G.successors s := rfl
  rw [hsucc]
  have hfilter : (G.successors s).filter
        (fun e => decide (((setSessionEventCount G v).nodeData e).get "node_type"
          = AttrValue.str "Event"))
      = (G.successors s).filter
        (fun e => decide ((G.nodeData e).get "node_type" = AttrValue.str "Event")) := by
    apply List.filter_congr
    intro e _
    rw [get_nodeData_setSess_ne G v e "node_type" (by decide)]
  rw [hfilter]
  have hmap : ∀ l : List String,
      l.map (eventView (setSessionEventCount G v)) = l.map (eventView G) := by
    intro l
    apply List.map_congr_left
    intro e _
    exact eventView_setSess G v e
  rw [hmap]

theorem sessionJourney_setSess (G : Graph) (v : AttrValue) (s : String) :
    sessionJourney (setSessionEventCount G v) s = sessionJourney G s := by
  simp only [sessionJourney]
  rw [sessionEvents_setSess,
    get_nodeData_setSess_ne G v s "session_id" (by decide),
    get_nodeData_setSess_ne G v s "start_time" (by decide)]

theorem extractByName_setSess (G : Graph) (v : AttrValue) (u : String) (m : Nat) :
    extractByName (setSessionEventCount G v) u m = extractByName G u m := by
  unfold extractByName
  rw [member_setSess]
  by_cases h : G.member u = true
  · rw [if_pos h, if_pos h]
    have hsucc : (setSessionEventCount G v).successors u = G.successors u := rfl
    rw [hsucc]
    have hfilter : (G.successors u).filter
          (fun n => decide (((setSessionEventCount G v).nodeData n).get "node_type"
            = AttrValue.str "Session"))
        = (G.successors u).filter
          (fun n => decide ((G.nodeData n).get "node_type" = AttrValue.str "Session")) := by
      apply List.filter_congr
      intro n _
      rw [get_nodeData_setSess_ne G v n "node_type" (by decide)]
    rw [hfilter]
    apply List.map_congr_left
    intro s _
    exact sessionJourney_setSess G v s
  · rw [if_neg h, if_neg h]

/-- C10.  Every Journey's `event_count` equals the length of its `events`
list, recomputed from the `Event`-typed successors of the session; the
Session node's stored `event_count` attribute is never read — overwriting
it on every Session node with an arbitrary value leaves the result of
`extract_user_journeys` unchanged. -/
theorem c10_event_count_recomputed (G : Graph) (v : AttrValue) (uid : ℤ) (m : Nat) :
    extract_user_journeys (setSessionEventCount G v) uid m
        = extract_user_journeys G uid m ∧
    ∀ j ∈ extract_user_journeys G uid m, j.event_count = j.events.length := by
  constructor
  · unfold extract_user_journeys
    exact extractByName_setSess G v _ m
  · intro j hj
    unfold extract_user_journeys extractByName at hj
    by_cases h : G.member ("user_" ++ toString uid) = true
    · rw [if_pos h] at hj
      obtain ⟨s, _, rfl⟩ := List.mem_map.mp hj
      rfl
    · rw [if_neg h] at hj
      simp at hj

/-- Witness for C10 at the test-fixture graph, with the stored
`event_count` overwritten by 999. -/
theorem c10_event_count_recomputed_witness :
    (extract_user_journeys (setSessionEventCount sampleG (AttrValue.int 999)) 1 10
        = extract_user_journeys sampleG 1 10) ∧
    ∀ j ∈ extract_user_journeys sampleG 1 10, j.event_count = j.events.length :=
  c10_event_count_recomputed sampleG (AttrValue.int 999) 1 10

theorem fsboGo_spec (G : Graph) (outcome : String) (limit : Nat) :
    ∀ (nodes : List (String × Attrs)) (acc : List String),
      (∀ x ∈ nodes, x ∈ G.nodes) →
      (∀ s ∈ acc, c6Property G outcome s) →
      acc.length < limit →
      (fsboGo G outcome limit nodes acc).length ≤ limit ∧
        ∀ s ∈ fsboGo G outcome limit nodes acc, c6Property G outcome s := by
  intro nodes
  induction nodes with
  | nil =>
    intro acc _ hacc hlen
    exact ⟨Nat.le_of_lt hlen, hacc⟩
  | cons nd rest ih =>
    intro acc hsub hacc hlen
    obtain ⟨n, d⟩ := nd
    have hsub' : ∀ x ∈ rest, x ∈ G.nodes := fun x hx => hsub x (List.mem_cons_of_mem _ hx)
    by_cases h1 : d.get "node_type" ≠ AttrValue.str "Event"
    · rw [show fsboGo G outcome limit ((n, d) :: rest) acc
          = fsboGo G outcome limit rest acc by simp [fsboGo, h1]]
      exact ih acc hsub' hacc hlen
    · by_cases h2 : d.get "event_type" ≠ AttrValue.str outcome
      · rw [show fsboGo G outcome limit ((n, d) :: rest) acc
            = fsboGo G outcome limit rest acc by simp [fsboGo, h1, h2]]
        exact ih acc hsub' hacc hlen
      · have hEvent : d.get "node_type" = AttrValue.str "Event" := not_not.mp h1
        have hOutcome : d.get "event_type" = AttrValue.str outcome := not_not.mp h2
        set acc' := (if hasNextEdge G n then acc
          else match sessionPredOf G n with
            | Option.some p => acc ++ [p]
            | Option.none => acc) with hacc'
        have hstep : fsboGo G outcome limit ((n, d) :: rest) acc
            = if limit ≤ acc'.length then acc' else fsboGo G outcome limit rest acc' := by
          simp [fsboGo, h1, h2, hacc']
        have haccP : ∀ s ∈ acc', c6Property G outcome s := by
          intro s hs
          rw [hacc'] at hs
          by_cases hnx : hasNextEdge G n
          · rw [if_pos hnx] at hs
            exact hacc s hs
          · rw [if_neg hnx] at hs
            cases hsp : sessionPredOf G n with
            | none => rw [hsp] at hs; exact hacc s hs
            | some p =>
              rw [hsp] at hs
              rcases List.mem_append.mp hs with hs | hs
              · exact hacc s hs
              · have hsp2 : s = p := by simpa using hs
                subst hsp2
                exact ⟨n, d, hsub (n, d) (List.mem_cons_self _ _),
                  hEvent, hOutcome, Bool.not_eq_true _ ▸ eq_false_of_ne_true hnx, hsp⟩
        have hlen' : acc'.length ≤ acc.length + 1 := by
          rw [hacc']
          by_cases hnx : hasNextEdge G n
          · simp [hnx]
          · cases hsp : sessionPredOf G n <;> simp [hnx, hsp]
        rw [hstep]
        by_cases hstop : limit ≤ acc'.length
        · rw [if_pos hstop]
          exact ⟨by omega, haccP⟩
        · rw [if_neg hstop]
          exact ih acc' hsub' haccP (by omega)

/-- C6 (counterexample).  With `limit = 0` the source appends before the
first length check, returning one session — violating "length at most
limit"; and on `oddEdgeG` the returned session reaches its event through a
`STARTED` edge while the graph has no `CONTAINS` edge at all, so the
returned id is not the CONTAINS-owning session of anything: ownership is
resolved by node type, not by edge type. -/
theorem c6_counterexample :
    (find_sessions_by_outcome limitZeroG "purchase" 0 = ["session_1"] ∧
      ¬ (find_sessions_by_outcome limitZeroG "purchase" 0).length ≤ 0) ∧
    (find_sessions_by_outcome oddEdgeG "purchase" 1 = ["sess"] ∧
      oddEdgeG.edges.all
        (fun t => ! decide (t.2.2.get "edge_type" = AttrValue.str "CONTAINS")) = true) := by
  refine ⟨⟨by decide, by decide⟩, by decide, by decide⟩

/-- C6 (amended).  For every graph, outcome and `limit ≥ 1`: the result
has length at most `limit`, and every returned id is the first
`Session`-typed predecessor (through any edge type — the CONTAINS-owner in
well-formed graphs) of an `Event` node of the outcome type with no
outbound NEXT edge. -/
theorem c6_sessions_by_outcome (G : Graph) (outcome : String) (limit : Nat)
    (hlim : 1 ≤ limit) :
    (find_sessions_by_outcome G outcome limit).length ≤ limit ∧
      ∀ s ∈ find_sessions_by_outcome G outcome limit, c6Property G outcome s := by
  unfold find_sessions_by_outcome
  exact fsboGo_spec G outcome limit G.nodes [] (fun x hx => hx) (by simp) (by simpa using hlim)

/-- Witness for C6's amended theorem at the test-fixture graph. -/
theorem c6_sessions_by_outcome_witness :
    (find_sessions_by_outcome sampleG "purchase" 100).length ≤ 100 ∧
      ∀ s ∈ find_sessions_by_outcome sampleG "purchase" 100, c6Property sampleG "purchase" s :=
  c6_sessions_by_outcome sampleG "purchase" 100 (by omega)

theorem fcpGo_no_match (G : Graph) (filt : List (String × AttrValue)) (limit : Nat) :
    ∀ (nodes : List (String × Attrs)),
      (∀ p ∈ nodes, p.2.get "node_type" = AttrValue.str "User" →
        userMatches p.2 filt = false) →
      ∀ (c : List (String × Nat)) (k : Nat), fcpGo G filt limit nodes c k = c := by
  intro nodes
  induction nodes with
  | nil => intro _ c k; rfl
  | cons nd rest ih =>
    intro h c k
    obtain ⟨n, d⟩ := nd
    have hrest : ∀ p ∈ rest, p.2.get "node_type" = AttrValue.str "User" →
        userMatches p.2 filt = false :=
      fun p hp => h p (List.mem_cons_of_mem _ hp)
    by_cases h1 : d.get "node_type" ≠ AttrValue.str "User"
    · rw [show fcpGo G filt limit ((n, d) :: rest) c k
          = fcpGo G filt limit rest c k by simp [fcpGo, h1]]
      exact ih hrest c k
    · have hU : d.get "node_type" = AttrValue.str "User" := not_not.mp h1
      have hm : userMatches d filt = false := h (n, d) (List.mem_cons_self _ _) hU
      rw [show fcpGo G filt limit ((n, d) :: rest) c k
          = fcpGo G filt limit rest c k by simp [fcpGo, h1, hm]]
      exact ih hrest c k

/-- C1 (counterexample).  On `elevenG` (no filter, limit 100) eleven
sessions are tallied into eleven distinct patterns; the returned top-10
percentages sum to 1000/11 ≈ 90.9 — not 100, and short of it by far more
than any rounding slack (the returned percentages are unrounded). -/
theorem c1_counterexample :
    0 < sumCounts (fcpCounter elevenG [] 100) ∧
    ((find_common_patterns elevenG [] 100).map (fun r => r.2.2)).sum = 1000 / 11 ∧
    ¬ (99 ≤ ((find_common_patterns elevenG [] 100).map (fun r => r.2.2)).sum) := by
  have hc : fcpCounter elevenG [] 100 =
      (List.range 11).map (fun i => ("t" ++ toString i, 1)) := by decide
  have hm : mostCommon ((List.range 11).map (fun i => ("t" ++ toString i, 1))) 10 =
      (List.range 10).map (fun i => ("t" ++ toString i, 1)) := by decide
  have hsum : sumCounts (fcpCounter elevenG [] 100) = 11 := by rw [hc]; decide
  have key : ((find_common_patterns elevenG [] 100).map (fun r => r.2.2)).sum = 1000 / 11 := by
    simp only [find_common_patterns]
    rw [hc, hm]
    norm_num [sumCounts, List.range_succ]
  refine ⟨by rw [hsum]; omega, key, by rw [key]; norm_num⟩

/-- C1 (amended).  When sessions were tallied and at most 10 distinct
patterns arose (so the top-10 cutoff drops nothing), the returned
percentages sum to exactly 100 (the source computes unrounded
`count / total * 100`); and when no scanned user node satisfies the
filter, the returned list is empty — so every returned percentage is 0
vacuously. -/
theorem c1_percentages (G : Graph) (filt : List (String × AttrValue)) (limit : Nat) :
    (0 < sumCounts (fcpCounter G filt limit) →
      (fcpCounter G filt limit).length ≤ 10 →
      ((find_common_patterns G filt limit).map (fun r => r.2.2)).sum = 100) ∧
    ((∀ p ∈ G.nodes, p.2.get "node_type" = AttrValue.str "User" →
        userMatches p.2 filt = false) →
      find_common_patterns G filt limit = []) := by
  constructor
  · intro htot hlen
    set c := fcpCounter G filt limit with hc
    set total := sumCounts c with htotal
    have hperm : List.Perm (stableSort (fun a b => decide (b.2 ≤ a.2)) c) c :=
      stableSort_perm _ c
    have hlen2 : (stableSort (fun a b => decide (b.2 ≤ a.2)) c).length ≤ 10 := by
      rw [hperm.length_eq]
      exact hlen
    have hmost : mostCommon c 10 = stableSort (fun a b => decide (b.2 ≤ a.2)) c :=
      List.take_of_length_le hlen2
    have htotne : (total : ℚ) ≠ 0 := by
      have : (0 : ℚ) < (total : ℚ) := by exact_mod_cast htot
      exact ne_of_gt this
    simp only [find_common_patterns, ← hc, ← htotal, hmost]
    rw [List.map_map]
    have hfun : ((fun r => r.2.2) ∘ fun p =>
          ((p.1, p.2, if 0 < total then (p.2 : ℚ) / (total : ℚ) * 100 else 0) :
            String × Nat × ℚ))
        = fun p : String × Nat => (p.2 : ℚ) * (100 / (total : ℚ)) := by
      funext p
      simp only [Function.comp]
      rw [if_pos htot]
      ring
    rw [hfun]
    rw [(hperm.map (fun p : String × Nat => (p.2 : ℚ) * (100 / (total : ℚ)))).sum_eq]
    rw [List.sum_map_mul_right]
    have hcast : ((c.map (fun p : String × Nat => ((p.2 : ℕ) : ℚ))).sum) = (total : ℚ) := by
      rw [htotal]
      unfold sumCounts
      rw [Nat.cast_list_sum, List.map_map]
      rfl
    rw [hcast]
    rw [mul_comm, div_mul_cancel₀ _ htotne]
  · intro h
    have hcempty : fcpCounter G filt limit = [] := by
      unfold fcpCounter
      exact fcpGo_no_match G filt limit G.nodes h [] 0
    simp [find_common_patterns, hcempty, mostCommon, stableSort]

/-- Witness for C1's amended theorem: the test-fixture graph sums to 100
with one tallied pattern, and a filter matched by no user yields `[]`. -/
theorem c1_percentages_witness :
    ((find_common_patterns sampleG [] 100).map (fun r => r.2.2)).sum = 100 ∧
    find_common_patterns sampleG [("churned", AttrValue.bool true)] 100 = [] :=
  ⟨(c1_percentages sampleG [] 100).1 (by decide) (by decide),
   (c1_percentages sampleG [("churned", AttrValue.bool true)] 100).2 (by decide)⟩

/-- C4 (counterexample).  On the empty graph `query_category_exit_analysis`
returns a zero-valued statistics block and no "no data found" placeholder:
every placeholder literal in the module contains the word `"found"`
(`"No journeys found matching the criteria."`, `"No ... found."`), and the
returned text contains no occurrence of it. -/
theorem c4_counterexample :
    hasSubstr (query_category_exit_analysis emptyGraph "Electronics") "found" = false := by
  have hst : epsGo emptyGraph "Electronics" 50 emptyGraph.nodes (0, [], []) = (0, [], []) := rfl
  have hexit : find_exit_points_after_category emptyGraph "Electronics" 50 =
      { category := "Electronics", exits_after_viewing := 0
        avg_events_before_exit := 0, last_event_before_exit := [] } := by
    simp [find_exit_points_after_category, hst, pyRound_zero, mostCommon, stableSort]
  have hq : query_category_exit_analysis emptyGraph "Electronics"
      = "## Exit Analysis for Electronics Category\n\n- Users who exited after viewing Electronics: 0\n- Average events before exit: 0\n\n### Last event type before exit:" := by
    rw [query_category_exit_analysis, hexit]
    simp only [renderCategoryExit, pyNumStr_zero]
    decide
  rw [hq]
  decide

/-- C4 (amended).  On the empty graph every high-level query function
returns normally (all four are total functions of the graph): the
churned-user analysis and the pre-purchase analysis return text carrying
their "no data" placeholders, the LTV comparison embeds the two pattern
placeholders inside a zero-valued stats block, and the category exit
analysis returns a zero-valued stats block containing no placeholder. -/
theorem c4_empty_graph_responses :
    query_churned_user_journeys emptyGraph 20
        = "No journeys found matching the criteria.\n\nNo churned user journey patterns found." ∧
    query_pre_purchase_behavior emptyGraph Option.none
        = "## Pre-Purchase Behavior Analysis\n\nPurchases analyzed: 0\n\n### Categories viewed before purchase:\n\n### Sample conversion journeys:\n\nNo journeys found matching the criteria." ∧
    hasSubstr (query_high_vs_low_ltv emptyGraph) "No high-value user patterns found." = true ∧
    hasSubstr (query_high_vs_low_ltv emptyGraph) "No low-value user patterns found." = true ∧
    query_category_exit_analysis emptyGraph "Electronics"
        = "## Exit Analysis for Electronics Category\n\n- Users who exited after viewing Electronics: 0\n- Average events before exit: 0\n\n### Last event type before exit:" := by
  have hhigh : serialize_patterns_for_llm
      (find_common_patterns emptyGraph [("segment", AttrValue.str "high_value")] 50)
      "high-value user patterns" = "No high-value user patterns found." := by decide
  have hlow : serialize_patterns_for_llm
      (find_common_patterns emptyGraph [("segment", AttrValue.str "low")] 50)
      "low-value user patterns" = "No low-value user patterns found." := by decide
  have hexit : query_category_exit_analysis emptyGraph "Electronics"
      = "## Exit Analysis for Electronics Category\n\n- Users who exited after viewing Electronics: 0\n- Average events before exit: 0\n\n### Last event type before exit:" := by
    have hst : epsGo emptyGraph "Electronics" 50 emptyGraph.nodes (0, [], []) = (0, [], []) := rfl
    have h2 : find_exit_points_after_category emptyGraph "Electronics" 50 =
        { category := "Electronics", exits_after_viewing := 0
          avg_events_before_exit := 0, last_event_before_exit := [] } := by
      simp [find_exit_points_after_category, hst, pyRound_zero, mostCommon, stableSort]
    rw [query_category_exit_analysis, h2]
    simp only [renderCategoryExit, pyNumStr_zero]
    decide
  refine ⟨by decide, by decide, ?_, ?_, hexit⟩
  · show hasSubstr
      (serialize_comparison_for_llm (compare_cohorts emptyGraph
          [("segment", AttrValue.str "high_value")] [("segment", AttrValue.str "low")] 50)
        "High-Value Users" "Low-Value Users" ++ "\n\n" ++
        serialize_patterns_for_llm
          (find_common_patterns emptyGraph [("segment", AttrValue.str "high_value")] 50)
          "high-value user patterns" ++ "\n\n" ++
        serialize_patterns_for_llm
          (find_common_patterns emptyGraph [("segment", AttrValue.str "low")] 50)
          "low-value user patterns") "No high-value user patterns found." = true
    apply hasSubstr_append_right
    apply hasSubstr_append_right
    apply hasSubstr_append_left
    rw [hhigh]
    decide
  · show hasSubstr
      (serialize_comparison_for_llm (compare_cohorts emptyGraph
          [("segment", AttrValue.str "high_value")] [("segment", AttrValue.str "low")] 50)
        "High-Value Users" "Low-Value Users" ++ "\n\n" ++
        serialize_patterns_for_llm
          (find_common_patterns emptyGraph [("segment", AttrValue.str "high_value")] 50)
          "high-value user patterns" ++ "\n\n" ++
        serialize_patterns_for_llm
          (find_common_patterns emptyGraph [("segment", AttrValue.str "low")] 50)
          "low-value user patterns") "No low-value user patterns found." = true
    apply hasSubstr_append_left
    rw [hlow]
    decide

/-- Every program over the module's (read-only) API footprint leaves the
graph unchanged. -/
theorem runQ_preserves : ∀ {α : Type} (q : GQuery α) (G : Graph), (runQ q G).2 = G := by
  intro α q
  induction q with
  | pure a => intro G; rfl
  | bind m f ihm ihf =>
    intro G
    show (runQ (f (runQ m G).1) (runQ m G).2).2 = G
    rw [ihf (runQ m G).1 (runQ m G).2, ihm G]
  | nodesQ => intro G; rfl
  | memberQ n => intro G; rfl
  | nodeDataQ n => intro G; rfl
  | succQ n => intro G; rfl
  | predQ n => intro G; rfl
  | edgeDataQ u v => intro G; rfl

theorem resQ_pure (a : α) (G : Graph) : resQ (GQuery.pure a) G = a := rfl

theorem resQ_bind (m : GQuery α) (f : α → GQuery β) (G : Graph) :
    resQ (GQuery.bind m f) G = resQ (f (resQ m G)) G := by
  show (runQ (f (runQ m G).1) (runQ m G).2).1 = _
  rw [runQ_preserves m G]
  rfl

theorem runQ_eq_resQ (q : GQuery α) (G : Graph) : runQ q G = (resQ q G, G) := by
  have h1 := runQ_preserves q G
  cases hq : runQ q G with
  | mk a G2 =>
    rw [hq] at h1
    simp only at h1
    subst h1
    show (a, G2) = ((runQ q G2).1, G2)
    rw [hq]

theorem resQ_mapM (f : α → GQuery β) (G : Graph) :
    ∀ l : List α, resQ (GQuery.mapM f l) G = l.map (fun a => resQ (f a) G) := by
  intro l
  induction l with
  | nil => rfl
  | cons a as ih => simp [GQuery.mapM, resQ_bind, resQ_pure, ih]

theorem resQ_filterM (p : α → GQuery Bool) (G : Graph) :
    ∀ l : List α, resQ (GQuery.filterM p l) G = l.filter (fun a => resQ (p a) G) := by
  intro l
  induction l with
  | nil => rfl
  | cons a as ih =>
    simp [GQuery.filterM, resQ_bind, resQ_pure, ih, List.filter_cons]

theorem resQ_foldlM (f : β → α → GQuery β) (G : Graph) :
    ∀ (l : List α) (b : β),
      resQ (GQuery.foldlM f b l) G = l.foldl (fun b a => resQ (f b a) G) b := by
  intro l
  induction l with
  | nil => intro b; rfl
  | cons a as ih => intro b; simp [GQuery.foldlM, resQ_bind, ih]

theorem resQ_anyM (p : α → GQuery Bool) (G : Graph) :
    ∀ l : List α, resQ (GQuery.anyM p l) G = l.any (fun a => resQ (p a) G) := by
  intro l
  induction l with
  | nil => rfl
  | cons a as ih =>
    simp only [GQuery.anyM, resQ_bind, List.any_cons]
    cases h : resQ (p a) G <;> simp [h, resQ_pure, ih]

theorem resQ_findM (p : α → GQuery Bool) (G : Graph) :
    ∀ l : List α, resQ (GQuery.findM p l) G = l.find? (fun a => resQ (p a) G) := by
  intro l
  induction l with
  | nil => rfl
  | cons a as ih =>
    simp only [GQuery.findM, resQ_bind, List.find?]
    cases h : resQ (p a) G <;> simp [h, resQ_pure, ih]

theorem resQ_filterMapM (f : α → GQuery (Option β)) (G : Graph) :
    ∀ l : List α,
      resQ (GQuery.filterMapM f l) G = l.filterMap (fun a => resQ (f a) G) := by
  intro l
  induction l with
  | nil => rfl
  | cons a as ih =>
    simp only [GQuery.filterMapM, resQ_bind, resQ_pure, ih, List.filterMap_cons]
    cases h : resQ (f a) G <;> simp [h]

theorem resQ_nodesQ (G : Graph) : resQ GQuery.nodesQ G = G.nodes := rfl

theorem resQ_memberQ (n : String) (G : Graph) : resQ (GQuery.memberQ n) G = G.member n := rfl

theorem resQ_nodeDataQ (n : String) (G : Graph) :
    resQ (GQuery.nodeDataQ n) G = G.nodeData n := rfl

theorem resQ_succQ (n : String) (G : Graph) : resQ (GQuery.succQ n) G = G.successors n := rfl

theorem resQ_predQ (n : String) (G : Graph) :
    resQ (GQuery.predQ n) G = G.predecessors n := rfl

theorem resQ_edgeDataQ (u v : String) (G : Graph) :
    resQ (GQuery.edgeDataQ u v) G = G.edgeData u v := rfl

theorem resQ_eventView (e : String) (G : Graph) : resQ (eventViewQ e) G = eventView G e := by
  simp [eventViewQ, eventView, resQ_bind, resQ_filterM, resQ_mapM, resQ_pure,
    resQ_nodeDataQ, resQ_succQ]

theorem resQ_sessionEvents (s : String) (G : Graph) :
    resQ (sessionEventsQ s) G = sessionEvents G s := by
  simp [sessionEventsQ, sessionEvents, resQ_bind, resQ_filterM, resQ_mapM, resQ_pure,
    resQ_nodeDataQ, resQ_succQ, resQ_eventView]

theorem resQ_sessionJourney (s : String) (G : Graph) :
    resQ (sessionJourneyQ s) G = sessionJourney G s := by
  simp [sessionJourneyQ, sessionJourney, resQ_bind, resQ_pure, resQ_nodeDataQ,
    resQ_sessionEvents]

theorem resQ_extractByName (u : String) (m : Nat) (G : Graph) :
    resQ (extractByNameQ u m) G = extractByName G u m := by
  simp only [extractByNameQ, extractByName, resQ_bind, resQ_memberQ]
  by_cases h : G.member u = true
  · simp [h, resQ_bind, resQ_filterM, resQ_mapM, resQ_pure, resQ_nodeDataQ, resQ_succQ,
      resQ_sessionJourney]
  · simp [h, resQ_pure]

theorem resQ_extract_user_journeys (uid : ℤ) (m : Nat) (G : Graph) :
    resQ (extract_user_journeysQ uid m) G = extract_user_journeys G uid m :=
  resQ_extractByName _ m G

theorem resQ_getUserContextA (uid : AttrValue) (G : Graph) :
    resQ (getUserContextAQ uid) G = getUserContextA G uid := by
  simp only [getUserContextAQ, getUserContextA, resQ_bind, resQ_memberQ]
  by_cases h : G.member ("user_" ++ pyStr uid) = true <;>
    simp [h, resQ_bind, resQ_pure, resQ_nodeDataQ]

theorem resQ_get_user_context (uid : ℤ) (G : Graph) :
    resQ (get_user_contextQ uid) G = get_user_context G uid :=
  resQ_getUserContextA _ G

theorem resQ_hasNextEdge (n : String) (G : Graph) :
    resQ (hasNextEdgeQ n) G = hasNextEdge G n := by
  simp [hasNextEdgeQ, hasNextEdge, resQ_bind, resQ_anyM, resQ_pure, resQ_succQ,
    resQ_edgeDataQ]

theorem resQ_sessionPredOf (n : String) (G : Graph) :
    resQ (sessionPredOfQ n) G = sessionPredOf G n := by
  simp [sessionPredOfQ, sessionPredOf, resQ_bind, resQ_findM, resQ_pure, resQ_predQ,
    resQ_nodeDataQ]

theorem resQ_userPredOf (s : String) (G : Graph) :
    resQ (userPredOfQ s) G = userPredOf G s := by
  simp [userPredOfQ, userPredOf, resQ_bind, resQ_findM, resQ_pure, resQ_predQ,
    resQ_nodeDataQ]

theorem resQ_fsboGo (outcome : String) (limit : Nat) (G : Graph) :
    ∀ (nodes : List (String × Attrs)) (acc : List String),
      resQ (fsboGoQ outcome limit nodes acc) G = fsboGo G outcome limit nodes acc := by
  intro nodes
  induction nodes with
  | nil => intro acc; rfl
  | cons nd rest ih =>
    intro acc
    obtain ⟨n, d⟩ := nd
    by_cases h1 : d.get "node_type" ≠ AttrValue.str "Event"
    · simp only [fsboGoQ, fsboGo, if_pos h1, ih]
    · by_cases h2 : d.get "event_type" ≠ AttrValue.str outcome
      · simp only [fsboGoQ, fsboGo, if_neg h1, if_pos h2, ih]
      · simp only [fsboGoQ, fsboGo, if_neg h1, if_neg h2, resQ_bind, resQ_hasNextEdge,
          resQ_sessionPredOf]
        set acc' := (if hasNextEdge G n then acc
          else match sessionPredOf G n with
            | Option.some p => acc ++ [p]
            | Option.none => acc)
        by_cases h3 : limit ≤ acc'.length
        · simp only [if_pos h3, resQ_pure]
        · simp only [if_neg h3, ih]

theorem resQ_find_sessions_by_outcome (outcome : String) (limit : Nat) (G : Graph) :
    resQ (find_sessions_by_outcomeQ outcome limit) G
      = find_sessions_by_outcome G outcome limit := by
  simp [find_sessions_by_outcomeQ, find_sessions_by_outcome, resQ_bind, resQ_nodesQ,
    resQ_fsboGo]

theorem resQ_convEntry (s : String) (G : Graph) :
    resQ (convEntryQ s) G = convEntry G s := by
  simp only [convEntryQ, convEntry, resQ_bind, resQ_userPredOf]
  cases hu : userPredOf G s with
  | none => rfl
  | some u =>
    simp only [resQ_bind, resQ_nodeDataQ, resQ_extractByName]
    cases hj : (extractByName G ("user_" ++ pyStr ((G.nodeData u).get "user_id")) 1).find?
        (fun j => decide (j.session_id = (G.nodeData s).get "session_id")) with
    | none => simp [hj, resQ_pure]
    | some j => simp [hj, resQ_bind, resQ_getUserContextA, resQ_pure]

theorem resQ_find_conversion_paths (limit : Nat) (G : Graph) :
    resQ (find_conversion_pathsQ limit) G = find_conversion_paths G limit := by
  simp [find_conversion_pathsQ, find_conversion_paths, resQ_bind, resQ_filterMapM,
    resQ_find_sessions_by_outcome, resQ_convEntry]

theorem resQ_churnEntry (s : String) (G : Graph) :
    resQ (churnEntryQ s) G = churnEntry G s := by
  simp only [churnEntryQ, churnEntry, resQ_bind, resQ_userPredOf]
  cases hu : userPredOf G s with
  | none => rfl
  | some u =>
    simp only [resQ_bind, resQ_nodeDataQ, resQ_getUserContextA]
    cases hctx : getUserContextA G ((G.nodeData u).get "user_id") with
    | none => rfl
    | some ctx =>
      by_cases hch : pyTruthy ctx.churned = true
      · simp only [if_pos hch, resQ_bind, resQ_nodeDataQ, resQ_extractByName]
        cases hj : (extractByName G ("user_" ++ pyStr ((G.nodeData u).get "user_id")) 1).find?
            (fun j => decide (j.session_id = (G.nodeData s).get "session_id")) with
        | none => rfl
        | some j => rfl
      · simp only [if_neg hch, resQ_pure]

theorem resQ_find_churn_paths (limit : Nat) (G : Graph) :
    resQ (find_churn_pathsQ limit) G = find_churn_paths G limit := by
  simp [find_churn_pathsQ, find_churn_paths, resQ_bind, resQ_filterMapM,
    resQ_find_sessions_by_outcome, resQ_churnEntry]

theorem resQ_fcpGo (filt : List (String × AttrValue)) (limit : Nat) (G : Graph) :
    ∀ (nodes : List (String × Attrs)) (c : List (String × Nat)) (k : Nat),
      resQ (fcpGoQ filt limit nodes c k) G = fcpGo G filt limit nodes c k := by
  intro nodes
  induction nodes with
  | nil => intro c k; rfl
  | cons nd rest ih =>
    intro c k
    obtain ⟨n, d⟩ := nd
    by_cases h1 : d.get "node_type" ≠ AttrValue.str "User"
    · simp only [fcpGoQ, fcpGo, if_pos h1, ih]
    · by_cases h2 : ¬ userMatches d filt
      · simp only [fcpGoQ, fcpGo, if_neg h1, if_pos h2, ih]
      · simp only [fcpGoQ, fcpGo, if_neg h1, if_neg h2, resQ_bind, resQ_extractByName]
        set r := tallyJourneys limit
          (extractByName G ("user_" ++ pyStr (d.get "user_id")) 5) c k
        by_cases h3 : limit ≤ r.2
        · simp only [if_pos h3, resQ_pure]
        · simp only [if_neg h3, ih]

theorem resQ_find_common_patterns (filt : List (String × AttrValue)) (limit : Nat)
    (G : Graph) :
    resQ (find_common_patternsQ filt limit) G = find_common_patterns G filt limit := by
  simp [find_common_patternsQ, find_common_patterns, fcpCounter, resQ_bind, resQ_nodesQ,
    resQ_fcpGo, resQ_pure]

theorem resQ_cohortGo (filt : List (String × AttrValue)) (sample_size : Nat) (G : Graph) :
    ∀ (nodes : List (String × Attrs)) (a : CohortAcc),
      resQ (cohortGoQ filt sample_size nodes a) G = cohortGo G filt sample_size nodes a := by
  intro nodes
  induction nodes with
  | nil => intro a; rfl
  | cons nd rest ih =>
    intro a
    obtain ⟨n, d⟩ := nd
    by_cases h1 : d.get "node_type" ≠ AttrValue.str "User"
    · simp only [cohortGoQ, cohortGo, if_pos h1, ih]
    · by_cases h2 : ¬ userMatches d filt
      · simp only [cohortGoQ, cohortGo, if_neg h1, if_pos h2, ih]
      · simp only [cohortGoQ, cohortGo, if_neg h1, if_neg h2, resQ_bind, resQ_extractByName]
        set a' := (extractByName G ("user_" ++ pyStr (d.get "user_id")) 3).foldl accJourney
          { a with users := a.users ++ [d] }
        by_cases h3 : sample_size ≤ a'.sessions.length
        · simp only [if_pos h3, resQ_pure]
        · simp only [if_neg h3, ih]

theorem resQ_analyze_cohort (filt : List (String × AttrValue)) (sample_size : Nat)
    (G : Graph) :
    resQ (analyze_cohortQ filt sample_size) G = analyze_cohort G filt sample_size := by
  simp [analyze_cohortQ, analyze_cohort, cohortAccOf, resQ_bind, resQ_nodesQ,
    resQ_cohortGo, resQ_pure]

theorem resQ_compare_cohorts (fA fB : List (String × AttrValue)) (sz : Nat) (G : Graph) :
    resQ (compare_cohortsQ fA fB sz) G = compare_cohorts G fA fB sz := by
  simp [compare_cohortsQ, compare_cohorts, resQ_bind, resQ_analyze_cohort, resQ_pure]

theorem resQ_nextPredOf (cur : String) (G : Graph) :
    resQ (nextPredOfQ cur) G = nextPredOf G cur := by
  simp [nextPredOfQ, nextPredOf, resQ_bind, resQ_findM, resQ_pure, resQ_predQ,
    resQ_edgeDataQ]

theorem resQ_backWalkFuel (G : Graph) :
    ∀ (fuel : Nat) (cur : String),
      resQ (backWalkFuelQ fuel cur) G = backWalkFuel G fuel cur := by
  intro fuel
  induction fuel with
  | zero => intro cur; rfl
  | succ k ih =>
    intro cur
    simp only [backWalkFuelQ, backWalkFuel, resQ_bind, resQ_nextPredOf]
    cases h : nextPredOf G cur with
    | none => rfl
    | some p => simp [resQ_bind, resQ_pure, ih]

theorem resQ_nextBackWalk (start : String) (G : Graph) :
    resQ (nextBackWalkQ start) G = nextBackWalk G start :=
  resQ_backWalkFuel G 20 start

theorem resQ_ite {c : Prop} [Decidable c] (m1 m2 : GQuery α) (G : Graph) :
    resQ (if c then m1 else m2) G = if c then resQ m1 G else resQ m2 G := by
  by_cases h : c <;> simp [h]

theorem resQ_firstProductSucc (n : String) (G : Graph) :
    resQ (firstProductSuccQ n) G = firstProductSucc G n := by
  simp [firstProductSuccQ, firstProductSucc, resQ_bind, resQ_findM, resQ_pure,
    resQ_succQ, resQ_nodeDataQ]

theorem resQ_purchasedMatches (cf n : String) (G : Graph) :
    resQ (purchasedMatchesQ cf n) G = purchasedMatches G cf n := by
  simp only [purchasedMatchesQ, purchasedMatches, resQ_bind, resQ_firstProductSucc]
  cases h : firstProductSucc G n <;> simp [resQ_bind, resQ_pure, resQ_nodeDataQ]

theorem resQ_tallyStepProducts
    (st : List (AttrValue × Nat) × List (AttrValue × Nat)) (p : String) (G : Graph) :
    resQ (tallyStepProductsQ st p) G = tallyStepProducts G st p := by
  simp only [tallyStepProductsQ, tallyStepProducts, resQ_bind, resQ_nodeDataQ]
  by_cases h : (G.nodeData p).get "event_type" = AttrValue.str "page_view" ∨
      (G.nodeData p).get "event_type" = AttrValue.str "click"
  · simp only [if_pos h, resQ_bind, resQ_filterM, resQ_foldlM, resQ_pure,
      resQ_nodeDataQ, resQ_succQ]
  · simp only [if_neg h, resQ_pure]

theorem resQ_fpbGo (cf : Option String) (limit : Nat) (G : Graph) :
    ∀ (nodes : List (String × Attrs))
      (st : List (AttrValue × Nat) × List (AttrValue × Nat) × Nat),
      resQ (fpbGoQ cf limit nodes st) G = fpbGo G cf limit nodes st := by
  intro nodes
  induction nodes with
  | nil => intro st; rfl
  | cons nd rest ih =>
    intro st
    obtain ⟨n, d⟩ := nd
    obtain ⟨cats, prods, tot⟩ := st
    by_cases h1 : d.get "node_type" ≠ AttrValue.str "Event"
    · simp only [fpbGoQ, fpbGo, if_pos h1, ih]
    · by_cases h2 : d.get "event_type" ≠ AttrValue.str "purchase"
      · simp only [fpbGoQ, fpbGo, if_neg h1, if_pos h2, ih]
      · cases cf with
        | none =>
          simp [fpbGoQ, fpbGo, if_neg h1, if_neg h2, resQ_bind, resQ_pure, resQ_ite,
            resQ_nextBackWalk, resQ_foldlM, resQ_tallyStepProducts, ih]
        | some c =>
          simp only [fpbGoQ, fpbGo, if_neg h1, if_neg h2, resQ_bind,
            resQ_purchasedMatches, resQ_pure]
          rw [resQ_ite]
          by_cases h3 : (decide (c ≠ "") && ! purchasedMatches G c n) = true
          · rw [if_pos h3, if_pos h3, ih]
          · rw [if_neg h3, if_neg h3]
            simp only [resQ_bind, resQ_nextBackWalk, resQ_foldlM, resQ_tallyStepProducts,
              resQ_ite, resQ_pure, ih]

theorem resQ_find_products_before_purchase (cf : Option String) (limit : Nat) (G : Graph) :
    resQ (find_products_before_purchaseQ cf limit) G
      = find_products_before_purchase G cf limit := by
  simp [find_products_before_purchaseQ, find_products_before_purchase, resQ_bind,
    resQ_nodesQ, resQ_fpbGo, resQ_pure]

theorem resQ_stepSeesCategory (cat p : String) (G : Graph) :
    resQ (stepSeesCategoryQ cat p) G = stepSeesCategory G cat p := by
  simp [stepSeesCategoryQ, stepSeesCategory, resQ_bind, resQ_anyM, resQ_pure,
    resQ_succQ, resQ_nodeDataQ]

theorem resQ_epsGo (cat : String) (limit : Nat) (G : Graph) :
    ∀ (nodes : List (String × Attrs)) (st : Nat × List (AttrValue × Nat) × List Nat),
      resQ (epsGoQ cat limit nodes st) G = epsGo G cat limit nodes st := by
  intro nodes
  induction nodes with
  | nil => intro st; rfl
  | cons nd rest ih =>
    intro st
    obtain ⟨n, d⟩ := nd
    obtain ⟨exits, pats, counts⟩ := st
    by_cases h1 : d.get "node_type" ≠ AttrValue.str "Event"
    · simp only [epsGoQ, epsGo, if_pos h1, ih]
    · by_cases h2 : d.get "event_type" ≠ AttrValue.str "exit"
      · simp only [epsGoQ, epsGo, if_neg h1, if_pos h2, ih]
      · simp only [epsGoQ, epsGo, if_neg h1, if_neg h2, resQ_bind, resQ_nextBackWalk,
          resQ_foldlM, resQ_anyM, resQ_stepSeesCategory, resQ_ite, resQ_pure,
          resQ_nodeDataQ, ih]

theorem resQ_find_exit_points_after_category (cat : String) (limit : Nat) (G : Graph) :
    resQ (find_exit_points_after_categoryQ cat limit) G
      = find_exit_points_after_category G cat limit := by
  simp [find_exit_points_after_categoryQ, find_exit_points_after_category, resQ_bind,
    resQ_nodesQ, resQ_epsGo, resQ_pure]

theorem resQ_query_churned_user_journeys (sz : Nat) (G : Graph) :
    resQ (query_churned_user_journeysQ sz) G = query_churned_user_journeys G sz := by
  simp [query_churned_user_journeysQ, query_churned_user_journeys, resQ_bind, resQ_pure,
    resQ_find_churn_paths, resQ_find_common_patterns]

theorem resQ_query_high_vs_low_ltv (G : Graph) :
    resQ query_high_vs_low_ltvQ G = query_high_vs_low_ltv G := by
  simp [query_high_vs_low_ltvQ, query_high_vs_low_ltv, resQ_bind, resQ_pure,
    resQ_compare_cohorts, resQ_find_common_patterns]

theorem resQ_query_pre_purchase_behavior (category : Option String) (G : Graph) :
    resQ (query_pre_purchase_behaviorQ category) G
      = query_pre_purchase_behavior G category := by
  simp [query_pre_purchase_behaviorQ, query_pre_purchase_behavior, resQ_bind, resQ_pure,
    resQ_find_products_before_purchase, resQ_find_conversion_paths]

theorem resQ_query_category_exit_analysis (category : String) (G : Graph) :
    resQ (query_category_exit_analysisQ category) G
      = query_category_exit_analysis G category := by
  simp [query_category_exit_analysisQ, query_category_exit_analysis, resQ_bind,
    resQ_pure, resQ_find_exit_points_after_category]

/-- C9.  Every retrieval operation is read-only.  Each operation of the
module is a program over `GQuery` — the exact (all-read) networkx API
footprint of `retrieval.py` — and running any such program returns the
graph unchanged; each conjunct below runs one retrieval operation's
program, returning exactly the pure function's result paired with the
untouched input graph.  The serializers never receive the graph at all
(their types take only already-extracted data), and journey/pattern
helpers are sub-programs of the operations listed. -/
theorem c9_retrieval_read_only :
    (∀ {α : Type} (q : GQuery α) (G : Graph), (runQ q G).2 = G) ∧
    (∀ (G : Graph) (uid : ℤ) (m : Nat),
      runQ (extract_user_journeysQ uid m) G = (extract_user_journeys G uid m, G)) ∧
    (∀ (G : Graph) (uid : ℤ),
      runQ (get_user_contextQ uid) G = (get_user_context G uid, G)) ∧
    (∀ (G : Graph) (outcome : String) (limit : Nat),
      runQ (find_sessions_by_outcomeQ outcome limit) G
        = (find_sessions_by_outcome G outcome limit, G)) ∧
    (∀ (G : Graph) (limit : Nat),
      runQ (find_conversion_pathsQ limit) G = (find_conversion_paths G limit, G)) ∧
    (∀ (G : Graph) (limit : Nat),
      runQ (find_churn_pathsQ limit) G = (find_churn_paths G limit, G)) ∧
    (∀ (G : Graph) (filt : List (String × AttrValue)) (limit : Nat),
      runQ (find_common_patternsQ filt limit) G = (find_common_patterns G filt limit, G)) ∧
    (∀ (G : Graph) (fA fB : List (String × AttrValue)) (sz : Nat),
      runQ (compare_cohortsQ fA fB sz) G = (compare_cohorts G fA fB sz, G)) ∧
    (∀ (G : Graph) (cf : Option String) (limit : Nat),
      runQ (find_products_before_purchaseQ cf limit) G
        = (find_products_before_purchase G cf limit, G)) ∧
    (∀ (G : Graph) (cat : String) (limit : Nat),
      runQ (find_exit_points_after_categoryQ cat limit) G
        = (find_exit_points_after_category G cat limit, G)) ∧
    (∀ (G : Graph) (sz : Nat),
      runQ (query_churned_user_journeysQ sz) G = (query_churned_user_journeys G sz, G)) ∧
    (∀ G : Graph, runQ query_high_vs_low_ltvQ G = (query_high_vs_low_ltv G, G)) ∧
    (∀ (G : Graph) (cat : Option String),
      runQ (query_pre_purchase_behaviorQ cat) G = (query_pre_purchase_behavior G cat, G)) ∧
    (∀ (G : Graph) (cat : String),
      runQ (query_category_exit_analysisQ cat) G
        = (query_category_exit_analysis G cat, G)) := by
  refine ⟨fun q G => runQ_preserves q G, ?_, ?_, ?_, ?_, ?_, ?_, ?_, ?_, ?_, ?_, ?_, ?_, ?_⟩
  · intro G uid m
    rw [runQ_eq_resQ, resQ_extract_user_journeys]
  · intro G uid
    rw [runQ_eq_resQ, resQ_get_user_context]
  · intro G outcome limit
    rw [runQ_eq_resQ, resQ_find_sessions_by_outcome]
  · intro G limit
    rw [runQ_eq_resQ, resQ_find_conversion_paths]
  · intro G limit
    rw [runQ_eq_resQ, resQ_find_churn_paths]
  · intro G filt limit
    rw [runQ_eq_resQ, resQ_find_common_patterns]
  · intro G fA fB sz
    rw [runQ_eq_resQ, resQ_compare_cohorts]
  · intro G cf limit
    rw [runQ_eq_resQ, resQ_find_products_before_purchase]
  · intro G cat limit
    rw [runQ_eq_resQ, resQ_find_exit_points_after_category]
  · intro G sz
    rw [runQ_eq_resQ, resQ_query_churned_user_journeys]
  · intro G
    rw [runQ_eq_resQ, resQ_query_high_vs_low_ltv]
  · intro G cat
    rw [runQ_eq_resQ, resQ_query_pre_purchase_behavior]
  · intro G cat
    rw [runQ_eq_resQ, resQ_query_category_exit_analysis]

end JourneyGraph
